import Mathlib

/-!
# fluentgo output sinks: a shallow embedding

The sink variants of `src/inout` (SQS, MongoDB, Redis, Kinesis) are embedded as
Lean functions.  Calls into backend drivers are recorded as events of an explicit
trace, and a Go panic is an explicit outcome of a call.
-/

set_option autoImplicit false

namespace Fluentgo

/-! ## Go runtime: panics, deferred calls, maps -/

/-- Value carried by a Go panic. -/
inductive PanicValue where
  /-- runtime error raised by calling a nil func value (it implements `error`) -/
  | nilFuncCall
  /-- a panic value that implements `error` -/
  | error (msg : String)
  /-- a panic value that does not implement `error` -/
  | other (msg : String)
  deriving DecidableEq, Repr

/-- How a Go call ends: it returns a value, or it panics. -/
inductive Outcome (α : Type) where
  | returned (a : α)
  | panicked (v : PanicValue)
  deriving DecidableEq, Repr

/-- A call together with the backend events it produced, oldest first. -/
abbrev Traced (ε α : Type) := List ε × Outcome α

/-- Sequencing of two traced calls: the second runs only when the first returned. -/
def Traced.andThen {ε α β : Type} (x : Traced ε α) (f : α → Traced ε β) : Traced ε β :=
  match x.2 with
  | .panicked v => (x.1, .panicked v)
  | .returned a => (x.1 ++ (f a).1, (f a).2)

/-- The statement `defer recover()`.  The deferred call is `recover` itself, so
`recover` is not called directly by a deferred function; by the Go specification
it then returns nil and does not stop the panicking sequence.  The statement
leaves the outcome of the surrounding function as it is. -/
def deferRecover {α : Type} (body : α) : α := body

/-- A function with one unnamed result whose deferred closure calls `recover()`:
a normal return yields the returned value, a recovered panic yields the zero
value of the result type (assignments the closure makes to local variables do not
reach the caller). -/
def recoverUnnamed {α : Type} (zero : α) : Outcome α → α
  | .returned a => a
  | .panicked _ => zero

/-- A Go `map[string][]T`, kept as an association list with distinct keys in
order of first insertion. -/
abbrev GoMap (α : Type) := List (String × List α)

/-- The read `v, _ := m[k]`: the stored slice, or the nil slice when `k` is absent. -/
def GoMap.get {α : Type} (m : GoMap α) (k : String) : List α :=
  match m with
  | [] => []
  | (k', v) :: rest => if k' = k then v else GoMap.get rest k

/-- The assignment `m[k] = v`. -/
def GoMap.set {α : Type} (m : GoMap α) (k : String) (v : List α) : GoMap α :=
  match m with
  | [] => [(k, v)]
  | (k', v') :: rest => if k' = k then (k', v) :: rest else (k', v') :: GoMap.set rest k v

/-- Keys of the map. -/
def GoMap.keys {α : Type} (m : GoMap α) : List String := m.map Prod.fst

/-! ## JSON values and path expressions (collaborators of the sinks) -/

/-- A decoded JSON document, as `json.Unmarshal` stores it in an `interface{}`;
`null` is the nil interface. -/
inductive JsonValue where
  | null
  | bool (b : Bool)
  | number (n : Int)
  | string (s : String)
  | array (items : List JsonValue)
  | object (fields : List (String × JsonValue))

/-- The messages of `sqsout.go` are byte arrays, those of `mongout.go` strings. -/
abbrev Message := String

/-- The function `json.Unmarshal` as the sinks use it: the decoded value or an error. -/
abbrev Unmarshal := Message → Except String JsonValue

/-- Interface of `lib.JsonPath` used by `sqsout.go`: `IsStatic()` and
`Eval(data, true)` returning `(interface{}, error)`. -/
structure JsonPath where
  isStatic : Bool
  eval : JsonValue → Except String JsonValue

/-- Interface of `lib.JsonPath` used by `mongout.go`: `IsStatic()` and
`Eval(data, true)` returning `(string, bool, error)`. -/
structure JsonPathS where
  isStatic : Bool
  eval : JsonValue → Except String (String × Bool)

/-! ## SQS sink (`sqsout.go`) -/

/-- The request built for `client.SendMessage`. -/
structure SendMessageInput where
  messageBody : String
  queueUrl : String
  delaySeconds : Int
  messageAttributes : List (String × String)
  deriving DecidableEq, Repr

/-- The SQS client handle: its `SendMessage` returns (results are ignored by the
sink) or panics. -/
structure SQS where
  sendMessage : SendMessageInput → Outcome Unit

/-- Events of the SQS send path. -/
inductive SqsEvent where
  /-- a call of `json.Unmarshal` on a message -/
  | jsonUnmarshal (msg : Message)
  /-- a call of `sqso.putMessages(messages, queueURL)` -/
  | putMessages (messages : List Message) (queueURL : String)
  /-- a call of `client.SendMessage(params)` -/
  | sendMessage (params : SendMessageInput)
  deriving DecidableEq, Repr

/-- The fields of `sqsOut` (with those of the embedded `sqsIO`) used by the send path. -/
structure sqsOut where
  client : Option SQS
  connFunc : Option (Unit → Option SQS)
  attributes : List (String × String)
  delaySeconds : Int
  queuePath : JsonPath

/-- The method `sqsOut.getClient`:
`if client == nil && connFunc == nil { return connFunc() }; return client`. -/
def sqsOut.getClient (sqso : sqsOut) : Outcome (Option SQS) :=
  if sqso.client.isNone && sqso.connFunc.isNone then
    match sqso.connFunc with
    | none => .panicked .nilFuncCall
    | some f => .returned (f ())
  else
    .returned sqso.client

/-- The loop `for _, msg := range messages` of `sqsOut.putMessages`. -/
def sqsOut.sendLoop (sqso : sqsOut) (client : SQS) (queueURL : String) :
    List Message → Traced SqsEvent Unit
  | [] => ([], .returned ())
  | msg :: rest =>
    if msg ≠ "" then
      let params : SendMessageInput :=
        { messageBody := msg, queueUrl := queueURL, delaySeconds := sqso.delaySeconds,
          messageAttributes := if sqso.attributes.length > 0 then sqso.attributes else [] }
      Traced.andThen ([.sendMessage params], client.sendMessage params)
        (fun _ => sqsOut.sendLoop sqso client queueURL rest)
    else
      sqsOut.sendLoop sqso client queueURL rest

/-- The method `sqsOut.putMessages`. -/
def sqsOut.putMessages (sqso : sqsOut) (messages : List Message) (queueURL : String) :
    Traced SqsEvent Unit :=
  if messages.length = 0 then ([], .returned ())
  else deferRecover <|
    match sqso.getClient with
    | .panicked v => ([], .panicked v)
    | .returned none => ([], .returned ())
    | .returned (some client) => sqsOut.sendLoop sqso client queueURL messages

/-- The grouping loop of `sqsOut.funcPutMessages` (dynamic path): one pass over
the batch that fills the `queues` map. -/
def sqsOut.groupLoop (queuePath : JsonPath) (unmarshal : Unmarshal) :
    GoMap Message → List Message → GoMap Message × List SqsEvent
  | queues, [] => (queues, [])
  | queues, msg :: rest =>
    if msg ≠ "" then
      match unmarshal msg with
      | .error _ =>
        let r := sqsOut.groupLoop queuePath unmarshal queues rest
        (r.1, .jsonUnmarshal msg :: r.2)
      | .ok data =>
        match queuePath.eval data with
        | .error _ =>
          let r := sqsOut.groupLoop queuePath unmarshal queues rest
          (r.1, .jsonUnmarshal msg :: r.2)
        | .ok (.string queueURL) =>
          let r := sqsOut.groupLoop queuePath unmarshal
            (queues.set queueURL (queues.get queueURL ++ [msg])) rest
          (r.1, .jsonUnmarshal msg :: r.2)
        | .ok _ =>
          let r := sqsOut.groupLoop queuePath unmarshal queues rest
          (r.1, .jsonUnmarshal msg :: r.2)
    else
      sqsOut.groupLoop queuePath unmarshal queues rest

/-- The loop `for queueURL, queueList = range queues` of `sqsOut.funcPutMessages`:
the send receives `messages`, the whole batch, for every key. -/
def sqsOut.rangeQueues (sqso : sqsOut) (messages : List Message) :
    GoMap Message → Traced SqsEvent Unit
  | [] => ([], .returned ())
  | (queueURL, _queueList) :: rest =>
    Traced.andThen
      (.putMessages messages queueURL :: (sqso.putMessages messages queueURL).1,
        (sqso.putMessages messages queueURL).2)
      (fun _ => sqsOut.rangeQueues sqso messages rest)

/-- The method `sqsOut.funcPutMessages`. -/
def sqsOut.funcPutMessages (sqso : sqsOut) (unmarshal : Unmarshal)
    (messages : List Message) (_indexName : String) : Traced SqsEvent Unit :=
  if messages.length = 0 then ([], .returned ())
  else deferRecover <|
    if sqso.queuePath.isStatic then
      match sqso.queuePath.eval .null with
      | .error _ => ([], .returned ())
      | .ok (.string queueURL) =>
        (.putMessages messages queueURL :: (sqso.putMessages messages queueURL).1,
          (sqso.putMessages messages queueURL).2)
      | .ok _ => ([], .returned ())
    else
      let grouped := sqsOut.groupLoop sqso.queuePath unmarshal [] messages
      let sent := sqsOut.rangeQueues sqso messages grouped.1
      (grouped.2 ++ sent.1, sent.2)

/-- The `queues` map that `sqsOut.funcPutMessages` builds for a batch. -/
def sqsOut.queues (sqso : sqsOut) (unmarshal : Unmarshal) (messages : List Message) :
    GoMap Message :=
  (sqsOut.groupLoop sqso.queuePath unmarshal [] messages).1

/-- Destination to which the dynamic branch of `sqsOut.funcPutMessages` routes a
message: the string its decoded JSON evaluates to; none when the message is empty,
does not decode, or its evaluation fails or yields nil or a non-string. -/
def sqsOut.destinationOf (queuePath : JsonPath) (unmarshal : Unmarshal) (msg : Message) :
    Option String :=
  if msg = "" then none
  else
    match unmarshal msg with
    | .error _ => none
    | .ok data =>
      match queuePath.eval data with
      | .ok (.string queueURL) => some queueURL
      | _ => none

/-- Grouping of a batch by a destination function: messages without destination
are skipped, the others are appended to the group of their destination. -/
def groupWith (dest : Message → Option String) :
    GoMap Message → List Message → GoMap Message
  | acc, [] => acc
  | acc, msg :: rest =>
    match dest msg with
    | none => groupWith dest acc rest
    | some d => groupWith dest (acc.set d (acc.get d ++ [msg])) rest

/-- Number of messages stored in a map, over all its keys. -/
def GoMap.size {α : Type} (m : GoMap α) : Nat := (m.map (fun kv => kv.2.length)).sum

/-- The calls of `putMessages` recorded in a trace, with their arguments. -/
def putCalls : List SqsEvent → List (List Message × String)
  | [] => []
  | .putMessages messages queueURL :: rest => (messages, queueURL) :: putCalls rest
  | _ :: rest => putCalls rest

/-- The messages on which a trace records a call of `json.Unmarshal`. -/
def decodeCalls : List SqsEvent → List Message
  | [] => []
  | .jsonUnmarshal msg :: rest => msg :: decodeCalls rest
  | _ :: rest => decodeCalls rest

/-! ## MongoDB sink (`mongout.go`) -/

/-- The session handle of the MongoDB driver: `Close()` returns or panics, and a
bulk insert into `db.collection` run with the given documents returns an optional
error or panics. -/
structure Session where
  id : Nat
  close : Outcome Unit
  bulkRun : String → String → List Message → Outcome (Option String)

/-- The dial functions of the MongoDB driver, `mgo.Dial` and `mgo.DialWithTimeout`. -/
structure MgoDriver where
  dial : String → Except String Session
  dialWithTimeout : String → Nat → Except String Session

/-- Events of the MongoDB sink. -/
inductive MongoEvent where
  /-- a call of `json.Unmarshal` on a message -/
  | jsonUnmarshal (msg : Message)
  /-- a call of `mo.putMessages(messages, collection)` -/
  | putMessages (messages : List Message) (collection : String)
  /-- a call of `mgo.Dial(servers)` -/
  | dial (servers : String)
  /-- a call of `mgo.DialWithTimeout(servers, timeout)` -/
  | dialWithTimeout (servers : String) (timeout : Nat)
  /-- a call of `session.SetMode(mgo.Monotonic, true)` -/
  | setMode (session : Nat)
  /-- a call of `bulk.Run()` with the documents inserted into the bulk -/
  | bulkRun (session : Nat) (db collection : String) (docs : List Message)
  /-- a call of `session.Close()` -/
  | sessionClose (session : Nat)
  deriving DecidableEq, Repr

/-- The fields of `mongOut` used by the send path and by teardown.  The mutex is
left out (calls are sequential here) and so is the logger, whose only use is to
print the error of a failed dial or bulk run. -/
structure mongOut where
  servers : String
  db : String
  dialTimeout : Nat
  collectionPath : JsonPathS
  session : Option Session

/-- Result of a method that updates the sink. -/
structure MongoStep (α : Type) where
  mo : mongOut
  trace : List MongoEvent
  result : Outcome α

/-- The method `mongOut.Connect`; its result is the returned error. -/
def mongOut.Connect (mo : mongOut) (mgo : MgoDriver) : MongoStep (Option String) :=
  match mo.session with
  | some _ => { mo := mo, trace := [], result := .returned none }
  | none =>
    if mo.dialTimeout = 0 then
      match mgo.dial mo.servers with
      | .error err => { mo := mo, trace := [.dial mo.servers], result := .returned (some err) }
      | .ok session =>
        { mo := { mo with session := some session },
          trace := [.dial mo.servers, .setMode session.id], result := .returned none }
    else
      match mgo.dialWithTimeout mo.servers mo.dialTimeout with
      | .error err =>
        { mo := mo, trace := [.dialWithTimeout mo.servers mo.dialTimeout],
          result := .returned (some err) }
      | .ok session =>
        { mo := { mo with session := some session },
          trace := [.dialWithTimeout mo.servers mo.dialTimeout, .setMode session.id],
          result := .returned none }

/-- The method `mongOut.funcAfterClose`. -/
def mongOut.funcAfterClose (mo : mongOut) : MongoStep Unit :=
  match mo.session with
  | none => { mo := mo, trace := [], result := .returned () }
  | some session =>
    deferRecover
      { mo := { mo with session := none }, trace := [.sessionClose session.id],
        result := session.close }

/-- The method `mongOut.putMessages`. -/
def mongOut.putMessages (mo : mongOut) (mgo : MgoDriver) (messages : List Message)
    (collection : String) : MongoStep Unit :=
  if messages.length = 0 then { mo := mo, trace := [], result := .returned () }
  else deferRecover <|
    let connected := mo.Connect mgo
    match connected.result, connected.mo.session with
    | .panicked v, _ => { mo := connected.mo, trace := connected.trace, result := .panicked v }
    | .returned (some _), _ =>
      { mo := connected.mo, trace := connected.trace, result := .returned () }
    | .returned none, none =>
      { mo := connected.mo, trace := connected.trace, result := .returned () }
    | .returned none, some session =>
      let docs := messages.filter (fun msg => decide (msg ≠ ""))
      if docs.length > 0 then
        let ran : Traced MongoEvent (Option String) :=
          ([MongoEvent.bulkRun session.id mo.db collection docs],
            session.bulkRun mo.db collection docs)
        match ran.2 with
        | .panicked v =>
          { mo := connected.mo, trace := connected.trace ++ ran.1, result := .panicked v }
        | .returned _ =>
          { mo := connected.mo, trace := connected.trace ++ ran.1, result := .returned () }
      else
        { mo := connected.mo, trace := connected.trace, result := .returned () }

/-- The grouping loop of `mongOut.funcPutMessages` (dynamic path): one pass over
the batch that fills the `collections` map. -/
def mongOut.groupLoop (collectionPath : JsonPathS) (unmarshal : Unmarshal) :
    GoMap Message → List Message → GoMap Message × List MongoEvent
  | collections, [] => (collections, [])
  | collections, msg :: rest =>
    if msg ≠ "" then
      match unmarshal msg with
      | .error _ =>
        let r := mongOut.groupLoop collectionPath unmarshal collections rest
        (r.1, .jsonUnmarshal msg :: r.2)
      | .ok data =>
        match collectionPath.eval data with
        | .error _ =>
          let r := mongOut.groupLoop collectionPath unmarshal collections rest
          (r.1, .jsonUnmarshal msg :: r.2)
        | .ok (collection, _) =>
          let r := mongOut.groupLoop collectionPath unmarshal
            (collections.set collection (collections.get collection ++ [msg])) rest
          (r.1, .jsonUnmarshal msg :: r.2)
    else
      mongOut.groupLoop collectionPath unmarshal collections rest

/-- The loop `for collection, collectionList = range collections` of
`mongOut.funcPutMessages`: the send receives `messages`, the whole batch, for
every key. -/
def mongOut.rangeCollections (mgo : MgoDriver) (messages : List Message) :
    mongOut → GoMap Message → MongoStep Unit
  | mo, [] => { mo := mo, trace := [], result := .returned () }
  | mo, (collection, _collectionList) :: rest =>
    let put := mo.putMessages mgo messages collection
    match put.result with
    | .panicked v =>
      { mo := put.mo, trace := .putMessages messages collection :: put.trace,
        result := .panicked v }
    | .returned _ =>
      let more := mongOut.rangeCollections mgo messages put.mo rest
      { mo := more.mo, trace := .putMessages messages collection :: put.trace ++ more.trace,
        result := more.result }

/-- The method `mongOut.funcPutMessages`. -/
def mongOut.funcPutMessages (mo : mongOut) (mgo : MgoDriver) (unmarshal : Unmarshal)
    (messages : List Message) (_collection : String) : MongoStep Unit :=
  if messages.length = 0 then { mo := mo, trace := [], result := .returned () }
  else deferRecover <|
    if mo.collectionPath.isStatic then
      match mo.collectionPath.eval .null with
      | .error _ => { mo := mo, trace := [], result := .returned () }
      | .ok (collection, _) =>
        let put := mo.putMessages mgo messages collection
        { mo := put.mo, trace := .putMessages messages collection :: put.trace,
          result := put.result }
    else
      let grouped := mongOut.groupLoop mo.collectionPath unmarshal [] messages
      let sent := mongOut.rangeCollections mgo messages mo grouped.1
      { mo := sent.mo, trace := grouped.2 ++ sent.trace, result := sent.result }

/-- The `collections` map that `mongOut.funcPutMessages` builds for a batch. -/
def mongOut.collections (mo : mongOut) (unmarshal : Unmarshal) (messages : List Message) :
    GoMap Message :=
  (mongOut.groupLoop mo.collectionPath unmarshal [] messages).1

/-- Destination to which the dynamic branch of `mongOut.funcPutMessages` routes a
message: the string its decoded JSON evaluates to; none when the message is empty,
does not decode, or its evaluation fails. -/
def mongOut.destinationOf (collectionPath : JsonPathS) (unmarshal : Unmarshal)
    (msg : Message) : Option String :=
  if msg = "" then none
  else
    match unmarshal msg with
    | .error _ => none
    | .ok data =>
      match collectionPath.eval data with
      | .ok (collection, _) => some collection
      | .error _ => none

/-- The calls of `mongOut.putMessages` recorded in a trace, with their arguments. -/
def mongoPutCalls : List MongoEvent → List (List Message × String)
  | [] => []
  | .putMessages messages collection :: rest => (messages, collection) :: mongoPutCalls rest
  | _ :: rest => mongoPutCalls rest

/-- The messages on which a trace records a call of `json.Unmarshal`. -/
def mongoDecodeCalls : List MongoEvent → List Message
  | [] => []
  | .jsonUnmarshal msg :: rest => msg :: mongoDecodeCalls rest
  | _ :: rest => mongoDecodeCalls rest

/-! ## Redis connection guard (`redisio.go`) -/

/-- The function `strings.ToUpper` on the letters `a` to `z`.  No other character
has `P`, `O`, `N` or `G` as its upper case, so a comparison of the result with
`PONG` comes out as in Go. -/
def ToUpper (s : String) : String := String.mk (s.data.map Char.toUpper)

/-- A reply of a Redis command, an `interface{}`. -/
inductive Reply where
  | nil
  | string (s : String)
  | other
  deriving DecidableEq, Repr

/-- The commands the guard issues through `conn.Do`. -/
inductive RedisCmd where
  | select (db : Int)
  | ping
  deriving DecidableEq, Repr

/-- A `redis.Conn`: what `Err()`, `Do(...)` and `Close()` answer; `Do` and `Close`
may panic. -/
structure Conn where
  id : Nat
  err : Option String
  doCmd : RedisCmd → Outcome (Reply × Option String)
  close : Outcome (Option String)

/-- The logger of the sink: its `Panic` method returns or panics; `Printf` and
`Println` only print. -/
structure Logger where
  panic : PanicValue → Outcome Unit

/-- Events of the Redis connection guard. -/
inductive RedisEvent where
  /-- a call of `conn.Err()` -/
  | connErr (conn : Nat)
  /-- a call of `conn.Close()` -/
  | connClose (conn : Nat)
  /-- a call of `conn.Do(...)` -/
  | connDo (conn : Nat) (cmd : RedisCmd)
  /-- a call of the `connFunc` callback -/
  | connFunc (conn : Nat)
  /-- a call of `getRedisConnection(poolName, server, password)` -/
  | getRedisConnection (poolName server password : String)
  /-- a call of `logger.Panic(err)` -/
  | loggerPanic (v : PanicValue)
  deriving DecidableEq, Repr

/-- The struct `redisIO`.  The handle `conn` is absent or a live connection. -/
structure redisIO where
  id : String
  db : Int
  command : String
  server : String
  password : String
  channel : String
  poolName : String
  connFunc : Option (Conn → Outcome (Option String))
  conn : Option Conn
  logger : Option Logger

/-- Result of a method that updates the `redisIO`. -/
structure RedisStep (α : Type) where
  rio : redisIO
  trace : List RedisEvent
  result : Outcome α

/-- The method `redisIO.funcAfterClose`. -/
def redisIO.funcAfterClose (rio : redisIO) : RedisStep Unit :=
  deferRecover <|
    match rio.conn with
    | none => { rio := rio, trace := [], result := .returned () }
    | some conn =>
      { rio := { rio with conn := none }, trace := [.connClose conn.id],
        result := match conn.close with
          | .returned _ => .returned ()
          | .panicked v => .panicked v }

/-- The method `redisIO.tryToCloseConn`: the result is unnamed, so a panic of
`conn.Close()` that the deferred closure recovers is returned as nil. -/
def redisIO.tryToCloseConn (_rio : redisIO) (conn : Option Conn) :
    List RedisEvent × Option String :=
  match conn with
  | none => ([], none)
  | some c => ([.connClose c.id], recoverUnnamed none c.close)

/-- The method `redisIO.selectDb`.  When `conn.Do` panics the deferred closure
recovers, closes the connection and the method returns the zero value nil. -/
def redisIO.selectDb (rio : redisIO) (conn : Conn) : List RedisEvent × Option String :=
  match conn.doCmd (.select rio.db) with
  | .returned (_, connErr) => ([.connDo conn.id (.select rio.db)], connErr)
  | .panicked _ =>
    (.connDo conn.id (.select rio.db) :: (deferRecover (rio.tryToCloseConn (some conn))).1,
      none)

/-- The method `redisIO.runConnFunc`.  When the callback panics the deferred
closure recovers and calls `conn.Close()`; the method then returns the zero value
nil, unless that `Close` panics as well. -/
def redisIO.runConnFunc (rio : redisIO) (conn : Conn) : Traced RedisEvent (Option String) :=
  match rio.connFunc with
  | none => ([], .returned none)
  | some cfn =>
    match cfn conn with
    | .returned funcErr => ([.connFunc conn.id], .returned funcErr)
    | .panicked _ =>
      deferRecover <|
        match conn.close with
        | .returned _ => ([.connFunc conn.id, .connClose conn.id], .returned none)
        | .panicked v => ([.connFunc conn.id, .connClose conn.id], .panicked v)

/-- The method `redisIO.ping`.  A panic of `conn.Do` is recovered by the deferred
closure and the method returns the zero value nil. -/
def redisIO.ping (_rio : redisIO) (conn : Option Conn) : List RedisEvent × Option String :=
  match conn with
  | none => ([], some "No Redis connection")
  | some c =>
    ([.connDo c.id .ping],
      recoverUnnamed none <|
        match c.doCmd .ping with
        | .panicked v => .panicked v
        | .returned (rep, subsErr) =>
          .returned <|
            if subsErr = none then
              match rep with
              | .string s =>
                if ToUpper s ≠ "PONG" then some "Unable to ping Redis" else subsErr
              | _ => some "Unable to ping Redis"
            else subsErr)

/-- The deferred closure of `redisIO.Connect`: a panic that reaches `Connect` is
recovered and handed to `logger.Panic` when a logger is set. -/
def redisIO.connectDeferred (step : RedisStep Unit) : RedisStep Unit :=
  match step.result with
  | .returned _ => step
  | .panicked v =>
    match step.rio.logger with
    | none => { step with result := .returned () }
    | some l => { step with trace := step.trace ++ [.loggerPanic v], result := l.panic v }

/-- The part of `redisIO.Connect` from `conn = getRedisConnection(...)` on. -/
def redisIO.acquire (rio : redisIO)
    (getRedisConnection : String → String → String → Option Conn) : RedisStep Unit :=
  let ev := RedisEvent.getRedisConnection rio.poolName rio.server rio.password
  match getRedisConnection rio.poolName rio.server rio.password with
  | none => { rio := { rio with conn := none }, trace := [ev], result := .returned () }
  | some conn =>
    let sel := rio.selectDb conn
    let png := rio.ping (some conn)
    match png.2 with
    | some _ =>
      { rio := { rio with conn := none },
        trace := ev :: sel.1 ++ png.1 ++ (rio.tryToCloseConn (some conn)).1,
        result := .returned () }
    | none =>
      let cf := rio.runConnFunc conn
      match cf.2 with
      | .panicked v => { rio := rio, trace := ev :: sel.1 ++ png.1 ++ cf.1, result := .panicked v }
      | .returned none =>
        { rio := { rio with conn := some conn }, trace := ev :: sel.1 ++ png.1 ++ cf.1,
          result := .returned () }
      | .returned (some _) =>
        { rio := { rio with conn := none },
          trace := ev :: sel.1 ++ png.1 ++ cf.1 ++ (rio.tryToCloseConn (some conn)).1,
          result := .returned () }

/-- The method `redisIO.Connect`. -/
def redisIO.Connect (rio : redisIO)
    (getRedisConnection : String → String → String → Option Conn) : RedisStep Unit :=
  redisIO.connectDeferred <|
    match rio.conn with
    | some conn =>
      match conn.err with
      | none => { rio := rio, trace := [.connErr conn.id], result := .returned () }
      | some _ =>
        let closed := rio.tryToCloseConn (some conn)
        let acquired := redisIO.acquire { rio with conn := none } getRedisConnection
        { acquired with trace := .connErr conn.id :: closed.1 ++ acquired.trace }
    | none => redisIO.acquire rio getRedisConnection

/-- The number of `conn.Close()` calls a trace records for a connection. -/
def closeCount (conn : Nat) (trace : List RedisEvent) : Nat :=
  trace.count (.connClose conn)

/-- Consecutive calls of `redisIO.funcAfterClose`: the final state and the events
of all the calls. -/
def redisIO.afterCloseTimes : Nat → redisIO → redisIO × List RedisEvent
  | 0, rio => (rio, [])
  | n + 1, rio =>
    let first := rio.funcAfterClose
    let more := redisIO.afterCloseTimes n first.rio
    (more.1, first.trace ++ more.2)

/-- Consecutive calls of `mongOut.funcAfterClose`: the final state and the events
of all the calls. -/
def mongOut.afterCloseTimes : Nat → mongOut → mongOut × List MongoEvent
  | 0, mo => (mo, [])
  | n + 1, mo =>
    let first := mo.funcAfterClose
    let more := mongOut.afterCloseTimes n first.mo
    (more.1, first.trace ++ more.2)

/-! ## Kinesis sink (`kinesisout.go`) -/

/-- One entry of a `PutRecords` request. -/
structure PutRecordsRequestEntry where
  data : Message
  partitionKey : String
  explicitHashKey : Option String
  deriving DecidableEq, Repr

/-- The Kinesis client handle: its `PutRecords` returns or panics. -/
structure Kinesis where
  putRecords : List PutRecordsRequestEntry → String → Outcome Unit

/-- The fields of `kinesisOut` (with those of the embedded `kinesisIO` and
`outHandler`) used by the send path. -/
structure kinesisOut where
  client : Option Kinesis
  connFunc : Option (Unit → Option Kinesis)
  compressed : Bool
  hashKeyIndex : Int
  streamName : String
  partitionKey : String
  explicitHashKeys : List String

/-- The method `kinesisOut.getClient`:
`if client == nil && connFunc == nil { return connFunc() }; return client`. -/
def kinesisOut.getClient (ko : kinesisOut) : Outcome (Option Kinesis) :=
  if ko.client.isNone && ko.connFunc.isNone then
    match ko.connFunc with
    | none => .panicked .nilFuncCall
    | some f => .returned (f ())
  else
    .returned ko.client

/-! ## Concrete collaborators used in the scenarios -/

/-- The document `{"tenant":"x","v":1}`. -/
def tenantMsg1 : Message := "\x7b\"tenant\":\"x\",\"v\":1\x7d"

/-- The document `{"tenant":"y","v":2}`. -/
def tenantMsg2 : Message := "\x7b\"tenant\":\"y\",\"v\":2\x7d"

/-- The document `{"tenant":"x","v":3}`. -/
def tenantMsg3 : Message := "\x7b\"tenant\":\"x\",\"v\":3\x7d"

/-- What `json.Unmarshal` yields on the three tenant documents and on the JSON
number `7`; every other payload of the scenarios is not valid JSON. -/
def scenarioUnmarshal : Unmarshal := fun msg =>
  if msg = tenantMsg1 then .ok (.object [("tenant", .string "x"), ("v", .number 1)])
  else if msg = tenantMsg2 then .ok (.object [("tenant", .string "y"), ("v", .number 2)])
  else if msg = tenantMsg3 then .ok (.object [("tenant", .string "x"), ("v", .number 3)])
  else if msg = "7" then .ok (.number 7)
  else .error "invalid character"

/-- Evaluation of the path `tenant`: the member `tenant` of an object. -/
def evalTenant : JsonValue → Except String JsonValue
  | .object fields =>
    match fields.lookup "tenant" with
    | some v => .ok v
    | none => .error "path not found"
  | _ => .error "path not found"

/-- The dynamic path `tenant`, as `sqsout.go` sees it. -/
def tenantPath : JsonPath := { isStatic := false, eval := evalTenant }

/-- The dynamic path `tenant`, as `mongout.go` sees it. -/
def tenantPathS : JsonPathS :=
  { isStatic := false,
    eval := fun data =>
      match evalTenant data with
      | .ok (.string s) => .ok (s, false)
      | _ => .error "path not found" }

/-- The static path `events`. -/
def eventsPath : JsonPath := { isStatic := true, eval := fun _ => .ok (.string "events") }

/-- The static path `events`, as `mongout.go` sees it. -/
def eventsPathS : JsonPathS := { isStatic := true, eval := fun _ => .ok ("events", true) }

/-- An SQS client whose `SendMessage` always returns. -/
def okClient : SQS := { sendMessage := fun _ => .returned () }

/-- An SQS client whose `SendMessage` panics for queue `x` and returns otherwise. -/
def faultyClient : SQS :=
  { sendMessage := fun params =>
      if params.queueUrl = "x" then .panicked (.error "connection reset") else .returned () }

/-- An SQS sink with the dynamic path `tenant` and the given client. -/
def tenantSink (client : Option SQS) : sqsOut :=
  { client := client, connFunc := some (fun _ => some okClient), attributes := [],
    delaySeconds := 0, queuePath := tenantPath }

/-- A MongoDB session whose calls all succeed. -/
def okSession : Session :=
  { id := 1, close := .returned (), bulkRun := fun _ _ _ => .returned none }

/-- A MongoDB driver whose dial yields `okSession`. -/
def okDriver : MgoDriver :=
  { dial := fun _ => .ok okSession, dialWithTimeout := fun _ _ => .ok okSession }

/-- A MongoDB sink with the dynamic path `tenant`. -/
def tenantMongo (session : Option Session) : mongOut :=
  { servers := "localhost", db := "logs", dialTimeout := 0, collectionPath := tenantPathS,
    session := session }

/-- A Redis guard as `newRedisIO` leaves it: no handle yet. -/
def freshRedis : redisIO :=
  { id := "0001", db := 0, command := "PUBLISH", server := "localhost:6379", password := "",
    channel := "logs", poolName := "", connFunc := none, conn := none, logger := none }

/-- A connection whose PING returns an error. -/
def deadConn : Conn :=
  { id := 1, err := none,
    doCmd := fun cmd =>
      match cmd with
      | .select _ => .returned (.string "OK", none)
      | .ping => .returned (.nil, some "EOF"),
    close := .returned none }

/-- A connection that answers every command. -/
def liveConn : Conn :=
  { id := 2, err := none,
    doCmd := fun cmd =>
      match cmd with
      | .select _ => .returned (.string "OK", none)
      | .ping => .returned (.string "PONG", none),
    close := .returned none }

/-- A connection whose `Do("PING")` panics. -/
def panickingConn : Conn :=
  { id := 3, err := none,
    doCmd := fun cmd =>
      match cmd with
      | .select _ => .returned (.string "OK", none)
      | .ping => .panicked (.error "invalid memory address or nil pointer dereference"),
    close := .returned none }

/-- A connection whose `Do("SELECT", db)` panics. -/
def selectPanicConn : Conn :=
  { id := 4, err := none,
    doCmd := fun cmd =>
      match cmd with
      | .select _ => .panicked (.error "invalid memory address or nil pointer dereference")
      | .ping => .returned (.nil, some "use of closed network connection"),
    close := .returned none }

/-- A `connFunc` callback that panics. -/
def panickingConnFunc : Conn → Outcome (Option String) :=
  fun _ => .panicked (.error "index out of range")

/-! ## Construction of the Redis guard (`newRedisIO` of `redisio.go`) -/

/-- The predicate `unicode.IsSpace`, by code point: tab, line feed, vertical tab,
form feed, carriage return, space, U+0085, U+00A0 and the other characters with
the Unicode property White_Space. -/
def isSpace (c : Char) : Bool :=
  let n := c.toNat
  (9 ≤ n && n ≤ 13) || n = 32 || n = 0x85 || n = 0xA0 || n = 0x1680
    || (0x2000 ≤ n && n ≤ 0x200A) || n = 0x2028 || n = 0x2029 || n = 0x202F
    || n = 0x205F || n = 0x3000

/-- The function `strings.TrimSpace`: the string without its leading and trailing
white space. -/
def TrimSpace (s : String) : String :=
  String.mk ((s.data.dropWhile isSpace).reverse.dropWhile isSpace).reverse

/-- A Go `float64`: a finite value, kept as the rational number it denotes, an
infinity, or a NaN. -/
inductive Float64 where
  | finite (value : Rat)
  | posInf
  | negInf
  | nan
  deriving DecidableEq, Repr

/-- The integer part of a rational number: its fraction is discarded (truncation
towards zero). -/
def integerPart (q : Rat) : Int := Int.tdiv q.num q.den

/-- The conversion `int(f)`, with `int` 64 bits wide.  When the integer part of
`f` fits the `int` type the result is that integer part.  Otherwise (a value too
large or too small, an infinity, a NaN) the conversion succeeds but Go leaves the
result to the implementation: `unrepresentable` gives it. -/
def Float64.toInt (unrepresentable : Float64 → Int) (f : Float64) : Int :=
  match f with
  | .finite q =>
    if -(2 ^ 63 : Int) ≤ integerPart q ∧ integerPart q < (2 ^ 63 : Int) then integerPart q
    else unrepresentable f
  | _ => unrepresentable f

/-- The result of `int(f)` on amd64 for a value the `int` type cannot represent:
the instruction CVTTSD2SQ yields the smallest `int64`. -/
def amd64Unrepresentable : Float64 → Int := fun _ => -(2 ^ 63 : Int)

/-- A value of the `params` map, an `interface{}`. -/
inductive ParamValue where
  | string (s : String)
  | float64 (f : Float64)
  | other
  deriving DecidableEq, Repr

/-- The map `map[string]interface{}` of configuration parameters. -/
abbrev Params := List (String × ParamValue)

/-- The read `s, ok = params[key].(string)`: the string, or none when the key is
missing or holds no string. -/
def paramString (params : Params) (key : String) : Option String :=
  match params.lookup key with
  | some (.string s) => some s
  | _ => none

/-- The read `f, ok = params[key].(float64)`: the number, or none when the key is
missing or holds no number. -/
def paramFloat64 (params : Params) (key : String) : Option Float64 :=
  match params.lookup key with
  | some (.float64 f) => some f
  | _ => none

/-- Modelled from the spec: `lib.MinInt` is not among the sources; it is taken as
the smaller of its two arguments. -/
def MinInt (a b : Int) : Int := if a ≤ b then a else b

/-- Modelled from the spec: `lib.MaxInt` is not among the sources; it is taken as
the larger of its two arguments. -/
def MaxInt (a b : Int) : Int := if a ≤ b then b else a

/-- The function `newRedisIO`.  The result of `lib.NewUUID()` is an argument, and
so is the result `unrepresentable` of `int(f)` for a value outside the `int` type;
the command is upper-cased with `ToUpper`. -/
def newRedisIO (logger : Option Logger) (newUUID : Except String String)
    (unrepresentable : Float64 → Int) (params : Option Params) : Option redisIO :=
  match params with
  | none => none
  | some params =>
    match newUUID with
    | .error _ => none
    | .ok id =>
      let poolName := match paramString params "poolName" with
        | some s => TrimSpace s
        | none => ""
      let server := match paramString params "server" with
        | some s => TrimSpace s
        | none => ""
      if server = "" then none
      else
        let channel := match paramString params "channel" with
          | some s => TrimSpace s
          | none => ""
        if channel = "" then none
        else
          let password := match paramString params "password" with
            | some s => TrimSpace s
            | none => ""
          let command := match paramString params "command" with
            | some s => ToUpper (TrimSpace s)
            | none => ""
          let db := match paramFloat64 params "db" with
            | some f => MinInt 15 (MaxInt 0 (f.toInt unrepresentable))
            | none => 0
          some { id := id, db := db, command := command, server := server,
                 password := password, channel := channel, poolName := poolName,
                 connFunc := none, conn := none, logger := logger }

/-! ## Kinesis send path (`kinesisOut.funcPutMessages`) -/

/-- Events of the Kinesis send path. -/
inductive KinesisEvent where
  /-- a call of `client.PutRecords` with the records and the stream name -/
  | putRecords (records : List PutRecordsRequestEntry) (streamName : String)
  deriving DecidableEq, Repr

/-- Result of a method that updates the `kinesisOut`. -/
structure KinesisStep (α : Type) where
  ko : kinesisOut
  trace : List KinesisEvent
  result : Outcome α

/-- The index expression `explicitHashKeys[i]` with an `int64` index: the element,
or the runtime panic of an index out of range. -/
def indexHashKeys (keys : List String) (i : Int) : Outcome String :=
  if 0 ≤ i ∧ i < keys.length then
    match keys.get? i.toNat with
    | some key => .returned key
    | none => .panicked (.error "index out of range")
  else .panicked (.error "index out of range")

/-- The loop `for _, msg := range messages` of `kinesisOut.funcPutMessages`: the
sink with its `hashKeyIndex` after the loop, and the records built (or the panic
of an index out of range).  `compress` stands for `lib.Compress(data, compressType)`.
The sum `hashKeyIndex + 1` is computed only after the index was found in range, so
it does not overflow `int64`; `%` is the truncated remainder of Go. -/
def kinesisOut.recordLoop (compress : Message → Message) :
    kinesisOut → List Message → kinesisOut × Outcome (List PutRecordsRequestEntry)
  | ko, [] => (ko, .returned [])
  | ko, msg :: rest =>
    if msg ≠ "" then
      let data := if ko.compressed then compress msg else msg
      let keyLen : Int := ko.explicitHashKeys.length
      if keyLen > 0 then
        if keyLen = 1 then
          match indexHashKeys ko.explicitHashKeys 0 with
          | .panicked v => (ko, .panicked v)
          | .returned hashKey =>
            let more := kinesisOut.recordLoop compress ko rest
            (more.1,
              match more.2 with
              | .panicked v => .panicked v
              | .returned records =>
                .returned (⟨data, ko.partitionKey, some hashKey⟩ :: records))
        else
          match indexHashKeys ko.explicitHashKeys ko.hashKeyIndex with
          | .panicked v => (ko, .panicked v)
          | .returned hashKey =>
            let more := kinesisOut.recordLoop compress
              { ko with hashKeyIndex := Int.tmod (ko.hashKeyIndex + 1) keyLen } rest
            (more.1,
              match more.2 with
              | .panicked v => .panicked v
              | .returned records =>
                .returned (⟨data, ko.partitionKey, some hashKey⟩ :: records))
      else
        let more := kinesisOut.recordLoop compress ko rest
        (more.1,
          match more.2 with
          | .panicked v => .panicked v
          | .returned records => .returned (⟨data, ko.partitionKey, none⟩ :: records))
    else
      kinesisOut.recordLoop compress ko rest

/-- The method `kinesisOut.funcPutMessages`. -/
def kinesisOut.funcPutMessages (ko : kinesisOut) (compress : Message → Message)
    (messages : List Message) (_indexName : String) : KinesisStep Unit :=
  if messages.length = 0 then { ko := ko, trace := [], result := .returned () }
  else deferRecover <|
    match ko.getClient with
    | .panicked v => { ko := ko, trace := [], result := .panicked v }
    | .returned none => { ko := ko, trace := [], result := .returned () }
    | .returned (some client) =>
      let built := kinesisOut.recordLoop compress ko messages
      match built.2 with
      | .panicked v => { ko := built.1, trace := [], result := .panicked v }
      | .returned records =>
        if records.length > 0 then
          { ko := built.1, trace := [.putRecords records ko.streamName],
            result := client.putRecords records ko.streamName }
        else { ko := built.1, trace := [], result := .returned () }

/-- The records a trace hands to `client.PutRecords`, call by call. -/
def recordsSent : List KinesisEvent → List (List PutRecordsRequestEntry)
  | [] => []
  | .putRecords records _ :: rest => records :: recordsSent rest

/-! ## Administration endpoints (`adminfunctions.go`) -/

/-- A running input or output, as the manager hands it out. -/
structure InOutCloser where
  id : String
  deriving DecidableEq, Repr

/-- The lookups of the manager `ioman` used by the stop endpoints. -/
structure InOutManager where
  findInput : String → Option InOutCloser
  findOutput : String → Option InOutCloser

/-- Events of the stop endpoints. -/
inductive AdminEvent where
  /-- a call of `ctx.Response.Header.SetContentType` -/
  | setContentType (contentType : String)
  /-- a call of `http.SetRestError(ctx, prms, err, status)` -/
  | setRestError (message : String) (status : Nat)
  /-- a call of `ioman.FindInput(id)` -/
  | findInput (id : String)
  /-- a call of `ioman.FindOutput(id)` -/
  | findOutput (id : String)
  /-- a call of `ioc.Close()` -/
  | close (ioc : InOutCloser)
  /-- a call of `fmt.Fprint(ctx, body)` -/
  | fprint (body : String)
  deriving DecidableEq, Repr

/-- The method `Params.ByName` of the router: the value of the first parameter
with the given key, or the empty string. -/
def ByName (prms : List (String × String)) (name : String) : String :=
  match prms with
  | [] => ""
  | (key, value) :: rest => if key = name then value else ByName rest name

/-- The body `{"result":"ok"}`. -/
def okBody : String := "\x7b\"result\":\"ok\"\x7d"

/-- The handler `stopInput`. -/
def stopInput (ioman : Option InOutManager) (prms : List (String × String)) :
    List AdminEvent :=
  .setContentType "application/json" ::
    match ioman with
    | none => [.setRestError "Cannot handle the request." 503]
    | some manager =>
      if prms.length = 0 then [.setRestError "Cannot handle the request." 503]
      else
        let id := ByName prms "id"
        let id := if id ≠ "" then TrimSpace id else id
        if id = "" then [.setRestError "Input ID required." 503]
        else
          match manager.findInput id with
          | none =>
            [.findInput id, .setRestError ("Cannot find input with id: " ++ id ++ ".") 503]
          | some ioc => [.findInput id, .close ioc, .fprint okBody]

/-- The handler `stopOutput`. -/
def stopOutput (ioman : Option InOutManager) (prms : List (String × String)) :
    List AdminEvent :=
  .setContentType "application/json" ::
    match ioman with
    | none => [.setRestError "Cannot handle the request." 503]
    | some manager =>
      if prms.length = 0 then [.setRestError "Cannot handle the request." 503]
      else
        let id := ByName prms "id"
        let id := if id ≠ "" then TrimSpace id else id
        if id = "" then [.setRestError "Input ID required." 503]
        else
          match manager.findOutput id with
          | none =>
            [.findOutput id, .setRestError ("Cannot find input with id: " ++ id ++ ".") 503]
          | some ioc => [.findOutput id, .close ioc, .fprint okBody]

/-- The instances on which a trace records a call of `Close()`. -/
def closeCalls : List AdminEvent → List InOutCloser
  | [] => []
  | .close ioc :: rest => ioc :: closeCalls rest
  | _ :: rest => closeCalls rest

/-- The error responses a trace records, as message and status. -/
def restErrors : List AdminEvent → List (String × Nat)
  | [] => []
  | .setRestError message status :: rest => (message, status) :: restErrors rest
  | _ :: rest => restErrors rest

/-- The bodies a trace records as written with `fmt.Fprint`. -/
def bodies : List AdminEvent → List String
  | [] => []
  | .fprint body :: rest => body :: bodies rest
  | _ :: rest => bodies rest

/-- A Kinesis client whose `PutRecords` returns. -/
def okKinesis : Kinesis := { putRecords := fun _ _ => .returned () }

/-- A Kinesis sink as `newKinesisOut` leaves it, with the hash keys `a|b`: the
client is absent, the factory is set, the index is 0. -/
def freshKinesis : kinesisOut :=
  { client := none, connFunc := some (fun _ => some okKinesis), compressed := false,
    hashKeyIndex := 0, streamName := "events", partitionKey := "pk",
    explicitHashKeys := ["a", "b"] }

/-- A Kinesis sink holding a client, with the hash keys `a|b|c` and the index 2. -/
def rotatingKinesis : kinesisOut :=
  { client := some okKinesis, connFunc := some (fun _ => some okKinesis), compressed := false,
    hashKeyIndex := 2, streamName := "events", partitionKey := "pk",
    explicitHashKeys := ["a", "b", "c"] }

/-- A manager with the single input `in-1` and the single output `out-1`. -/
def sampleManager : InOutManager :=
  { findInput := fun id => if id = "in-1" then some { id := "in-1" } else none,
    findOutput := fun id => if id = "out-1" then some { id := "out-1" } else none }

/-- Parameters of a Redis sink with the database number `1e19`, a `float64` whose
integer part is above the largest `int`. -/
def hugeDbParams : Params :=
  [("server", .string "localhost:6379"), ("channel", .string "logs"),
    ("db", .float64 (.finite 10000000000000000000))]

/-- Parameters of a Redis sink with padded server and channel and a database
number above the range. -/
def sampleRedisParams : Params :=
  [("server", .string "  localhost:6379 "), ("channel", .string "logs "),
    ("command", .string "publish"), ("db", .float64 (.finite 99))]

/-- The requests a trace records as handed to `client.SendMessage`, in order. -/
def sendCalls : List SqsEvent → List SendMessageInput
  | [] => []
  | .sendMessage params :: rest => params :: sendCalls rest
  | _ :: rest => sendCalls rest

/-- The bulk inserts a trace records as run, in order: database, collection and
the documents inserted. -/
def bulkCalls : List MongoEvent → List (String × String × List Message)
  | [] => []
  | .bulkRun _ db collection docs :: rest => (db, collection, docs) :: bulkCalls rest
  | _ :: rest => bulkCalls rest

/-! ## Lemmas on maps and grouping -/

theorem goMap_get_set {α : Type} (m : GoMap α) (k k' : String) (v : List α) :
    (m.set k v).get k' = if k = k' then v else m.get k' := by
  induction m with
  | nil => simp [GoMap.set, GoMap.get]
  | cons kv rest ih =>
    obtain ⟨k0, v0⟩ := kv
    by_cases h : k0 = k
    · subst h
      by_cases h' : k0 = k' <;> simp [GoMap.set, GoMap.get, h']
    · by_cases h' : k0 = k'
      · subst h'
        have : ¬ k = k0 := fun e => h e.symm
        simp [GoMap.set, GoMap.get, h, this]
      · simp [GoMap.set, GoMap.get, h, h', ih]

theorem goMap_keys_set {α : Type} (m : GoMap α) (k : String) (v : List α) :
    (m.set k v).keys = if k ∈ m.keys then m.keys else m.keys ++ [k] := by
  induction m with
  | nil => simp [GoMap.set, GoMap.keys]
  | cons kv rest ih =>
    obtain ⟨k0, v0⟩ := kv
    simp only [GoMap.keys] at ih
    by_cases h : k0 = k
    · subst h
      simp [GoMap.set, GoMap.keys]
    · have hne : ¬ k = k0 := fun e => h e.symm
      by_cases hm : k ∈ rest.map Prod.fst
      · simp only [GoMap.set, GoMap.keys, h, if_false, List.map_cons, List.mem_cons, hne,
          false_or, hm, if_true] at ih ⊢
        rw [ih]
      · simp only [GoMap.set, GoMap.keys, h, if_false, List.map_cons, List.mem_cons, hne,
          false_or, hm, List.cons_append] at ih ⊢
        rw [ih]

theorem goMap_nodup_keys_set {α : Type} (m : GoMap α) (k : String) (v : List α)
    (h : m.keys.Nodup) : (m.set k v).keys.Nodup := by
  rw [goMap_keys_set]
  by_cases hm : k ∈ m.keys
  · simpa [hm] using h
  · simp only [hm, if_false]
    rw [List.nodup_append]
    refine ⟨h, List.nodup_singleton k, ?_⟩
    intro a ha hb
    rw [List.mem_singleton] at hb
    exact hm (hb ▸ ha)

theorem goMap_size_set_append {α : Type} (m : GoMap α) (k : String) (x : α) :
    (m.set k (m.get k ++ [x])).size = m.size + 1 := by
  induction m with
  | nil => simp [GoMap.set, GoMap.get, GoMap.size]
  | cons kv rest ih =>
    obtain ⟨k0, v0⟩ := kv
    by_cases h : k0 = k
    · simp [GoMap.set, GoMap.get, GoMap.size, h]; omega
    · simp only [GoMap.size] at ih
      simp [GoMap.set, GoMap.get, GoMap.size, h, ih]; omega

theorem groupWith_get (dest : Message → Option String) (d : String) (l : List Message) :
    ∀ acc : GoMap Message, (groupWith dest acc l).get d
      = acc.get d ++ l.filter (fun m => decide (dest m = some d)) := by
  induction l with
  | nil => intro acc; simp [groupWith]
  | cons msg rest ih =>
    intro acc
    cases hd : dest msg with
    | none => simp [groupWith, hd, ih, List.filter_cons]
    | some d' =>
      simp only [groupWith, hd, ih, goMap_get_set]
      by_cases e : d' = d
      · subst e; simp [List.filter_cons, hd]
      · simp [List.filter_cons, hd, e]

theorem groupWith_keys_nodup (dest : Message → Option String) (l : List Message) :
    ∀ acc : GoMap Message, acc.keys.Nodup → (groupWith dest acc l).keys.Nodup := by
  induction l with
  | nil => intro acc h; simpa [groupWith] using h
  | cons msg rest ih =>
    intro acc h
    cases hd : dest msg with
    | none => simpa [groupWith, hd] using ih acc h
    | some d' =>
      simp only [groupWith, hd]
      exact ih _ (goMap_nodup_keys_set _ _ _ h)

theorem groupWith_mem_keys (dest : Message → Option String) (d : String) (l : List Message) :
    ∀ acc : GoMap Message, d ∈ (groupWith dest acc l).keys
      ↔ d ∈ acc.keys ∨ ∃ m ∈ l, dest m = some d := by
  induction l with
  | nil => intro acc; simp [groupWith]
  | cons msg rest ih =>
    intro acc
    cases hd : dest msg with
    | none => simp [groupWith, hd, ih]
    | some d' =>
      simp only [groupWith, hd, ih, goMap_keys_set]
      by_cases hm : d' ∈ acc.keys
      · by_cases e : d' = d
        · subst e; simp [hm, hd]
        · simp [hm, hd, e]
      · by_cases e : d' = d
        · subst e; simp [hm, hd]
        · have e' : ¬ d = d' := fun x => e x.symm
          simp [hm, hd, e, e']

theorem groupWith_size (dest : Message → Option String) (l : List Message) :
    ∀ acc : GoMap Message, (groupWith dest acc l).size
      = acc.size + (l.filter (fun m => (dest m).isSome)).length := by
  induction l with
  | nil => intro acc; simp [groupWith]
  | cons msg rest ih =>
    intro acc
    cases hd : dest msg with
    | none => simp [groupWith, hd, ih]
    | some d' =>
      simp only [groupWith, hd, ih, goMap_size_set_append]
      simp [hd]; omega

theorem groupWith_skip (dest : Message → Option String) (msg : Message)
    (h : dest msg = none) (post : List Message) :
    ∀ (pre : List Message) (acc : GoMap Message),
      groupWith dest acc (pre ++ msg :: post) = groupWith dest acc (pre ++ post) := by
  intro pre
  induction pre with
  | nil => intro acc; simp [groupWith, h]
  | cons m rest ih =>
    intro acc
    cases hd : dest m with
    | none => simpa [groupWith, hd] using ih acc
    | some d' => simpa [groupWith, hd] using ih _

theorem sqs_groupLoop_fst (queuePath : JsonPath) (unmarshal : Unmarshal)
    (l : List Message) : ∀ acc : GoMap Message,
      (sqsOut.groupLoop queuePath unmarshal acc l).1
        = groupWith (sqsOut.destinationOf queuePath unmarshal) acc l := by
  induction l with
  | nil => intro acc; simp [sqsOut.groupLoop, groupWith]
  | cons msg rest ih =>
    intro acc
    by_cases he : msg = ""
    · simp [sqsOut.groupLoop, groupWith, sqsOut.destinationOf, he, ih]
    · cases hu : unmarshal msg with
      | error e => simp [sqsOut.groupLoop, groupWith, sqsOut.destinationOf, he, hu, ih]
      | ok data =>
        cases hv : queuePath.eval data with
        | error e => simp [sqsOut.groupLoop, groupWith, sqsOut.destinationOf, he, hu, hv, ih]
        | ok v =>
          cases v <;> simp [sqsOut.groupLoop, groupWith, sqsOut.destinationOf, he, hu, hv, ih]

theorem mongo_groupLoop_fst (collectionPath : JsonPathS) (unmarshal : Unmarshal)
    (l : List Message) : ∀ acc : GoMap Message,
      (mongOut.groupLoop collectionPath unmarshal acc l).1
        = groupWith (mongOut.destinationOf collectionPath unmarshal) acc l := by
  induction l with
  | nil => intro acc; simp [mongOut.groupLoop, groupWith]
  | cons msg rest ih =>
    intro acc
    by_cases he : msg = ""
    · simp [mongOut.groupLoop, groupWith, mongOut.destinationOf, he, ih]
    · cases hu : unmarshal msg with
      | error e => simp [mongOut.groupLoop, groupWith, mongOut.destinationOf, he, hu, ih]
      | ok data =>
        cases hv : collectionPath.eval data with
        | error e =>
          simp [mongOut.groupLoop, groupWith, mongOut.destinationOf, he, hu, hv, ih]
        | ok v =>
          simp [mongOut.groupLoop, groupWith, mongOut.destinationOf, he, hu, hv, ih]

theorem sqs_queues_eq (sqso : sqsOut) (unmarshal : Unmarshal) (messages : List Message) :
    sqso.queues unmarshal messages
      = groupWith (sqsOut.destinationOf sqso.queuePath unmarshal) [] messages := by
  simp [sqsOut.queues, sqs_groupLoop_fst]

theorem mongo_collections_eq (mo : mongOut) (unmarshal : Unmarshal)
    (messages : List Message) :
    mo.collections unmarshal messages
      = groupWith (mongOut.destinationOf mo.collectionPath unmarshal) [] messages := by
  simp [mongOut.collections, mongo_groupLoop_fst]

/-- Facts that hold of the map built by `groupWith` from the empty map: every key
holds the ordered sub-sequence routed to it, keys are distinct, a key exists
exactly when some message is routed to it, and the groups together hold as many
messages as have a destination. -/
theorem groupWith_partition (dest : Message → Option String) (messages : List Message) :
    (∀ d, (groupWith dest [] messages).get d
        = messages.filter (fun m => decide (dest m = some d)))
    ∧ (groupWith dest [] messages).keys.Nodup
    ∧ (∀ d, d ∈ (groupWith dest [] messages).keys ↔ ∃ m ∈ messages, dest m = some d)
    ∧ (groupWith dest [] messages).size
        + (messages.filter (fun m => decide (dest m = none))).length = messages.length := by
  refine ⟨fun d => ?_, ?_, fun d => ?_, ?_⟩
  · simp [groupWith_get, GoMap.get]
  · exact groupWith_keys_nodup dest messages [] (by simp [GoMap.keys])
  · rw [groupWith_mem_keys]; simp [GoMap.keys]
  · rw [groupWith_size]
    simp only [GoMap.size, List.map_nil, List.sum_nil, Nat.zero_add]
    induction messages with
    | nil => simp
    | cons m rest ih =>
      cases hd : dest m <;> simp [List.filter_cons, hd] <;> omega

theorem sqs_destinationOf_eq_some (queuePath : JsonPath) (unmarshal : Unmarshal)
    (msg : Message) (d : String) :
    sqsOut.destinationOf queuePath unmarshal msg = some d
      ↔ msg ≠ "" ∧ ∃ data, unmarshal msg = .ok data ∧ queuePath.eval data = .ok (.string d) := by
  by_cases he : msg = ""
  · simp [sqsOut.destinationOf, he]
  · cases hu : unmarshal msg with
    | error e => simp [sqsOut.destinationOf, he, hu]
    | ok data =>
      cases hv : queuePath.eval data with
      | error e => simp [sqsOut.destinationOf, he, hu, hv]
      | ok v => cases v <;> simp [sqsOut.destinationOf, he, hu, hv]

theorem mongo_destinationOf_eq_some (collectionPath : JsonPathS) (unmarshal : Unmarshal)
    (msg : Message) (d : String) :
    mongOut.destinationOf collectionPath unmarshal msg = some d
      ↔ msg ≠ "" ∧ ∃ data b, unmarshal msg = .ok data
          ∧ collectionPath.eval data = .ok (d, b) := by
  by_cases he : msg = ""
  · simp [mongOut.destinationOf, he]
  · cases hu : unmarshal msg with
    | error e => simp [mongOut.destinationOf, he, hu]
    | ok data =>
      cases hv : collectionPath.eval data with
      | error e => simp [mongOut.destinationOf, he, hu, hv]
      | ok v =>
        obtain ⟨c, b⟩ := v
        cases b <;> simp [mongOut.destinationOf, he, hu, hv]

theorem putCalls_sendLoop (sqso : sqsOut) (client : SQS) (queueURL : String)
    (messages : List Message) :
    putCalls (sqsOut.sendLoop sqso client queueURL messages).1 = []
      ∧ decodeCalls (sqsOut.sendLoop sqso client queueURL messages).1 = [] := by
  induction messages with
  | nil => simp [sqsOut.sendLoop, putCalls, decodeCalls]
  | cons msg rest ih =>
    by_cases he : msg = ""
    · simpa [sqsOut.sendLoop, he] using ih
    · simp only [sqsOut.sendLoop, he, ne_eq, not_false_eq_true, if_true, Traced.andThen]
      split
      · simp [putCalls, decodeCalls]
      · simp [putCalls, decodeCalls, ih]

theorem putCalls_putMessages (sqso : sqsOut) (messages : List Message) (queueURL : String) :
    putCalls (sqso.putMessages messages queueURL).1 = []
      ∧ decodeCalls (sqso.putMessages messages queueURL).1 = [] := by
  unfold sqsOut.putMessages deferRecover
  split
  · simp [putCalls, decodeCalls]
  · split
    · simp [putCalls, decodeCalls]
    · simp [putCalls, decodeCalls]
    · exact putCalls_sendLoop _ _ _ _

theorem mongoPutCalls_append (a b : List MongoEvent) :
    mongoPutCalls (a ++ b) = mongoPutCalls a ++ mongoPutCalls b := by
  induction a with
  | nil => simp [mongoPutCalls]
  | cons e rest ih => cases e <;> simp [mongoPutCalls, ih]

theorem mongoDecodeCalls_append (a b : List MongoEvent) :
    mongoDecodeCalls (a ++ b) = mongoDecodeCalls a ++ mongoDecodeCalls b := by
  induction a with
  | nil => simp [mongoDecodeCalls]
  | cons e rest ih => cases e <;> simp [mongoDecodeCalls, ih]

theorem mongoPutCalls_Connect (mo : mongOut) (mgo : MgoDriver) :
    mongoPutCalls (mo.Connect mgo).trace = []
      ∧ mongoDecodeCalls (mo.Connect mgo).trace = [] := by
  unfold mongOut.Connect
  repeat' split
  all_goals simp [mongoPutCalls, mongoDecodeCalls]

theorem mongoPutCalls_putMessages (mo : mongOut) (mgo : MgoDriver) (messages : List Message)
    (collection : String) :
    mongoPutCalls (mo.putMessages mgo messages collection).trace = []
      ∧ mongoDecodeCalls (mo.putMessages mgo messages collection).trace = [] := by
  have hc := mongoPutCalls_Connect mo mgo
  unfold mongOut.putMessages deferRecover
  by_cases hl : messages.length = 0
  · simp [hl, mongoPutCalls, mongoDecodeCalls]
  · simp only [hl, if_false]
    generalize mo.Connect mgo = connected at hc ⊢
    obtain ⟨mo', tr, res⟩ := connected
    cases res with
    | panicked v => simpa using hc
    | returned r =>
      cases r with
      | some e => simpa using hc
      | none =>
        cases hs : mo'.session with
        | none => simpa [hs] using hc
        | some session =>
          simp only [hs]
          simp only at hc
          split
          · split <;>
              simp [mongoPutCalls, mongoDecodeCalls, mongoPutCalls_append,
                mongoDecodeCalls_append, hc.1, hc.2]
          · simpa using hc

/-! ## Claims on the send path -/

/-- C1, evaluated on the code: under the dynamic path `tenant`, a batch of one
message for `x` and one for `y` is grouped correctly, yet each `putMessages` call
of `sqsOut.funcPutMessages` (and of `mongOut.funcPutMessages`) receives the whole
batch, so the message that resolved to `y` is sent to queue `x` and inserted into
collection `x`. -/
theorem funcPutMessages_sends_whole_batch_to_each_destination :
    sqsOut.queues (tenantSink (some okClient)) scenarioUnmarshal [tenantMsg1, tenantMsg2]
        = [("x", [tenantMsg1]), ("y", [tenantMsg2])]
    ∧ putCalls (sqsOut.funcPutMessages (tenantSink (some okClient)) scenarioUnmarshal
          [tenantMsg1, tenantMsg2] "").1
        = [([tenantMsg1, tenantMsg2], "x"), ([tenantMsg1, tenantMsg2], "y")]
    ∧ SqsEvent.sendMessage ⟨tenantMsg2, "x", 0, []⟩
        ∈ (sqsOut.funcPutMessages (tenantSink (some okClient)) scenarioUnmarshal
          [tenantMsg1, tenantMsg2] "").1
    ∧ mongOut.collections (tenantMongo none) scenarioUnmarshal [tenantMsg1, tenantMsg2]
        = [("x", [tenantMsg1]), ("y", [tenantMsg2])]
    ∧ mongoPutCalls (mongOut.funcPutMessages (tenantMongo none) okDriver scenarioUnmarshal
          [tenantMsg1, tenantMsg2] "").trace
        = [([tenantMsg1, tenantMsg2], "x"), ([tenantMsg1, tenantMsg2], "y")]
    ∧ MongoEvent.bulkRun 1 "logs" "x" [tenantMsg1, tenantMsg2]
        ∈ (mongOut.funcPutMessages (tenantMongo none) okDriver scenarioUnmarshal
          [tenantMsg1, tenantMsg2] "").trace := by
  refine ⟨by decide, by decide, by decide, by decide, by decide, by decide⟩

/-- C2: under a dynamic path the `queues` map of `sqsOut.funcPutMessages` and the
`collections` map of `mongOut.funcPutMessages` hold, for each destination, exactly
the messages routed to it in their original order; a message is routed to `d`
exactly when it is non-empty and its decoded JSON evaluates to the string `d`;
keys are distinct and exist only for destinations some message is routed to; and
the sizes of the groups plus the number of dropped messages give the size of the
batch.  The scenario of the three tenant documents yields `x ↦ [msg1, msg3]`,
`y ↦ [msg2]`. -/
theorem destination_map_partitions_batch :
    (∀ (sqso : sqsOut) (unmarshal : Unmarshal) (messages : List Message),
      (∀ msg d, sqsOut.destinationOf sqso.queuePath unmarshal msg = some d
          ↔ msg ≠ "" ∧ ∃ data, unmarshal msg = .ok data
              ∧ sqso.queuePath.eval data = .ok (.string d))
      ∧ (∀ d, (sqso.queues unmarshal messages).get d
          = messages.filter
              (fun m => decide (sqsOut.destinationOf sqso.queuePath unmarshal m = some d)))
      ∧ (sqso.queues unmarshal messages).keys.Nodup
      ∧ (∀ d, d ∈ (sqso.queues unmarshal messages).keys
          ↔ ∃ m ∈ messages, sqsOut.destinationOf sqso.queuePath unmarshal m = some d)
      ∧ (sqso.queues unmarshal messages).size
          + (messages.filter
              (fun m => decide (sqsOut.destinationOf sqso.queuePath unmarshal m = none))).length
          = messages.length)
    ∧ (∀ (mo : mongOut) (unmarshal : Unmarshal) (messages : List Message),
      (∀ msg d, mongOut.destinationOf mo.collectionPath unmarshal msg = some d
          ↔ msg ≠ "" ∧ ∃ data b, unmarshal msg = .ok data
              ∧ mo.collectionPath.eval data = .ok (d, b))
      ∧ (∀ d, (mo.collections unmarshal messages).get d
          = messages.filter
              (fun m => decide (mongOut.destinationOf mo.collectionPath unmarshal m = some d)))
      ∧ (mo.collections unmarshal messages).keys.Nodup
      ∧ (∀ d, d ∈ (mo.collections unmarshal messages).keys
          ↔ ∃ m ∈ messages, mongOut.destinationOf mo.collectionPath unmarshal m = some d)
      ∧ (mo.collections unmarshal messages).size
          + (messages.filter
              (fun m => decide (mongOut.destinationOf mo.collectionPath unmarshal m = none))).length
          = messages.length)
    ∧ sqsOut.queues (tenantSink none) scenarioUnmarshal [tenantMsg1, tenantMsg2, tenantMsg3]
        = [("x", [tenantMsg1, tenantMsg3]), ("y", [tenantMsg2])]
    ∧ mongOut.collections (tenantMongo none) scenarioUnmarshal
          [tenantMsg1, tenantMsg2, tenantMsg3]
        = [("x", [tenantMsg1, tenantMsg3]), ("y", [tenantMsg2])] := by
  refine ⟨fun sqso unmarshal messages => ?_, fun mo unmarshal messages => ?_,
    by decide, by decide⟩
  · rw [sqs_queues_eq]
    exact ⟨sqs_destinationOf_eq_some _ _, groupWith_partition _ messages⟩
  · rw [mongo_collections_eq]
    exact ⟨mongo_destinationOf_eq_some _ _, groupWith_partition _ messages⟩

/-- C3, evaluated on the code: when the client is absent and `connFunc` is set,
`getClient` of `sqsOut` and of `kinesisOut` does not call `connFunc` and returns
the absent client, whatever handle `connFunc` would yield; `putMessages` on such a
fresh SQS sink then sends nothing.  With both absent, `getClient` calls the nil
`connFunc` and panics. -/
theorem getClient_returns_absent_client_when_connFunc_set :
    (∀ (f : Unit → Option SQS) (attributes : List (String × String)) (delay : Int)
        (queuePath : JsonPath),
      sqsOut.getClient ⟨none, some f, attributes, delay, queuePath⟩ = .returned none
      ∧ ∀ messages queueURL,
          sqsOut.putMessages ⟨none, some f, attributes, delay, queuePath⟩ messages queueURL
            = ([], .returned ()))
    ∧ (∀ (f : Unit → Option Kinesis) (compressed : Bool) (i : Int) (stream key : String)
        (hashKeys : List String),
      kinesisOut.getClient ⟨none, some f, compressed, i, stream, key, hashKeys⟩
        = .returned none)
    ∧ sqsOut.getClient ⟨none, none, [], 0, eventsPath⟩ = .panicked .nilFuncCall
    ∧ (sqsOut.funcPutMessages (tenantSink none) scenarioUnmarshal [tenantMsg1] "").1
        = [.jsonUnmarshal tenantMsg1, .putMessages [tenantMsg1] "x"] := by
  refine ⟨fun f attributes delay queuePath => ⟨rfl, fun messages queueURL => ?_⟩,
    fun f compressed i stream key hashKeys => rfl, rfl, by decide⟩
  unfold sqsOut.putMessages deferRecover
  split
  · rfl
  · rfl

/-- C4, evaluated on the code: with a client whose `SendMessage` panics for queue
`x`, the panic leaves `sqsOut.putMessages` and `sqsOut.funcPutMessages` (their
`defer recover()` does not recover it); the batch has the two destinations `x` and
`y`, and when `x` is visited first the send for `y` is never attempted; when `y`
is visited first the call still ends in the panic. -/
theorem send_panic_escapes_funcPutMessages :
    (sqsOut.queues (tenantSink (some faultyClient)) scenarioUnmarshal
        [tenantMsg1, tenantMsg2]).keys = ["x", "y"]
    ∧ (sqsOut.putMessages (tenantSink (some faultyClient)) [tenantMsg1, tenantMsg2] "x").2
        = .panicked (.error "connection reset")
    ∧ (sqsOut.funcPutMessages (tenantSink (some faultyClient)) scenarioUnmarshal
        [tenantMsg1, tenantMsg2] "").2 = .panicked (.error "connection reset")
    ∧ putCalls (sqsOut.funcPutMessages (tenantSink (some faultyClient)) scenarioUnmarshal
        [tenantMsg1, tenantMsg2] "").1 = [([tenantMsg1, tenantMsg2], "x")]
    ∧ (sqsOut.rangeQueues (tenantSink (some faultyClient)) [tenantMsg1, tenantMsg2]
        [("y", [tenantMsg2]), ("x", [tenantMsg1])]).2 = .panicked (.error "connection reset") := by
  refine ⟨by decide, by decide, by decide, by decide, by decide⟩

theorem attributes_or_nil (l : List (String × String)) :
    (if l.length > 0 then l else []) = l := by
  cases l <;> simp

theorem sendLoop_sendCalls_prefix (sqso : sqsOut) (client : SQS) (queueURL : String)
    (messages : List Message) :
    sendCalls (sqsOut.sendLoop sqso client queueURL messages).1
      <+: (messages.filter (fun msg => decide (msg ≠ ""))).map
            (fun msg => (⟨msg, queueURL, sqso.delaySeconds, sqso.attributes⟩ : SendMessageInput)) := by
  induction messages with
  | nil => simp [sqsOut.sendLoop, sendCalls]
  | cons msg rest ih =>
    by_cases he : msg = ""
    · simpa [sqsOut.sendLoop, he] using ih
    · simp only [sqsOut.sendLoop, he, ne_eq, not_false_eq_true, if_true, Traced.andThen,
        attributes_or_nil, List.filter_cons, decide_True, List.map_cons]
      split
      · simp [sendCalls]
      · simpa [sendCalls, List.prefix_cons_inj] using ih

theorem sendLoop_all_returned (sqso : sqsOut) (client : SQS) (queueURL : String)
    (hok : ∀ params, client.sendMessage params = .returned ()) (messages : List Message) :
    sqsOut.sendLoop sqso client queueURL messages
      = ((messages.filter (fun msg => decide (msg ≠ ""))).map
            (fun msg => SqsEvent.sendMessage ⟨msg, queueURL, sqso.delaySeconds, sqso.attributes⟩),
          .returned ()) := by
  induction messages with
  | nil => simp [sqsOut.sendLoop]
  | cons msg rest ih =>
    by_cases he : msg = ""
    · simpa [sqsOut.sendLoop, he] using ih
    · simp [sqsOut.sendLoop, he, Traced.andThen, hok, ih, attributes_or_nil, List.filter_cons]

theorem sqs_putMessages_with_client (sqso : sqsOut) (client : SQS) (messages : List Message)
    (queueURL : String) (hc : sqso.client = some client) (hne : messages ≠ []) :
    sqso.putMessages messages queueURL = sqsOut.sendLoop sqso client queueURL messages := by
  have hl : ¬ messages.length = 0 := by simpa using hne
  simp [sqsOut.putMessages, deferRecover, hl, sqsOut.getClient, hc]

theorem sqs_putMessages_sendCalls_prefix (sqso : sqsOut) (messages : List Message)
    (queueURL : String) :
    sendCalls (sqso.putMessages messages queueURL).1
      <+: (messages.filter (fun msg => decide (msg ≠ ""))).map
            (fun msg => (⟨msg, queueURL, sqso.delaySeconds, sqso.attributes⟩ : SendMessageInput)) := by
  unfold sqsOut.putMessages deferRecover
  split
  · simp [sendCalls]
  · split
    · simp [sendCalls]
    · simp [sendCalls]
    · exact sendLoop_sendCalls_prefix _ _ _ _

theorem bulkCalls_append (a b : List MongoEvent) :
    bulkCalls (a ++ b) = bulkCalls a ++ bulkCalls b := by
  induction a with
  | nil => simp [bulkCalls]
  | cons e rest ih => cases e <;> simp [bulkCalls, ih]

theorem bulkCalls_Connect (mo : mongOut) (mgo : MgoDriver) :
    bulkCalls (mo.Connect mgo).trace = [] ∧ (mo.Connect mgo).mo.db = mo.db := by
  unfold mongOut.Connect
  repeat' split
  all_goals simp [bulkCalls]

theorem bulkCalls_putMessages (mo : mongOut) (mgo : MgoDriver) (messages : List Message)
    (collection : String) :
    bulkCalls (mo.putMessages mgo messages collection).trace
      <+: [(mo.db, collection, messages.filter (fun msg => decide (msg ≠ "")))] := by
  have hc := bulkCalls_Connect mo mgo
  unfold mongOut.putMessages deferRecover
  by_cases hl : messages.length = 0
  · simp [hl, bulkCalls]
  · simp only [hl, if_false]
    generalize mo.Connect mgo = connected at hc ⊢
    obtain ⟨mo', tr, res⟩ := connected
    simp only at hc
    cases res with
    | panicked v => simp [hc.1]
    | returned r =>
      cases r with
      | some e => simp [hc.1]
      | none =>
        cases hs : mo'.session with
        | none => simp [hs, hc.1]
        | some session =>
          simp only [hs]
          split
          · split <;> simp [bulkCalls, bulkCalls_append, hc.1]
          · simp [hc.1]

/-- C5: with a static path that evaluates to the destination `d`, for a non-empty
batch (whatever its payloads) `funcPutMessages` of `sqsOut` and of `mongOut` calls
`json.Unmarshal` on no message and makes one call of `putMessages`, whose
arguments are the batch itself and `d`: the run is the run of
`putMessages(messages, d)`.  What reaches the backend is the batch in its order
with that destination: every `SendMessage` request carries a non-empty message of
the batch, in order, with queue `d`, and with a client whose `SendMessage` returns
these are all the non-empty messages; a bulk insert, if one is run, holds the
non-empty messages in order for collection `d`, and with a session present and a
non-empty message that insert is run. -/
theorem static_path_sends_whole_batch_once :
    (∀ (sqso : sqsOut) (unmarshal : Unmarshal) (messages : List Message)
        (indexName d : String),
      messages ≠ [] → sqso.queuePath.isStatic = true →
      sqso.queuePath.eval .null = .ok (.string d) →
      sqso.funcPutMessages unmarshal messages indexName
          = (.putMessages messages d :: (sqso.putMessages messages d).1,
              (sqso.putMessages messages d).2)
      ∧ decodeCalls (sqso.funcPutMessages unmarshal messages indexName).1 = []
      ∧ putCalls (sqso.funcPutMessages unmarshal messages indexName).1 = [(messages, d)]
      ∧ sendCalls (sqso.funcPutMessages unmarshal messages indexName).1
          <+: (messages.filter (fun msg => decide (msg ≠ ""))).map
                (fun msg => (⟨msg, d, sqso.delaySeconds, sqso.attributes⟩ : SendMessageInput))
      ∧ (∀ client, sqso.client = some client →
          (∀ params, client.sendMessage params = .returned ()) →
          sqso.funcPutMessages unmarshal messages indexName
            = (.putMessages messages d
                :: (messages.filter (fun msg => decide (msg ≠ ""))).map
                    (fun msg => SqsEvent.sendMessage
                      ⟨msg, d, sqso.delaySeconds, sqso.attributes⟩),
                .returned ())))
    ∧ (∀ (mo : mongOut) (mgo : MgoDriver) (unmarshal : Unmarshal) (messages : List Message)
        (collection d : String) (b : Bool),
      messages ≠ [] → mo.collectionPath.isStatic = true →
      mo.collectionPath.eval .null = .ok (d, b) →
      mo.funcPutMessages mgo unmarshal messages collection
          = { mo := (mo.putMessages mgo messages d).mo,
              trace := .putMessages messages d :: (mo.putMessages mgo messages d).trace,
              result := (mo.putMessages mgo messages d).result }
      ∧ mongoDecodeCalls (mo.funcPutMessages mgo unmarshal messages collection).trace = []
      ∧ mongoPutCalls (mo.funcPutMessages mgo unmarshal messages collection).trace
          = [(messages, d)]
      ∧ bulkCalls (mo.funcPutMessages mgo unmarshal messages collection).trace
          <+: [(mo.db, d, messages.filter (fun msg => decide (msg ≠ "")))]
      ∧ (∀ session, mo.session = some session →
          messages.filter (fun msg => decide (msg ≠ "")) ≠ [] →
          (mo.funcPutMessages mgo unmarshal messages collection).trace
            = [.putMessages messages d,
                .bulkRun session.id mo.db d (messages.filter (fun msg => decide (msg ≠ "")))])) := by
  constructor
  · intro sqso unmarshal messages indexName d hne hs he
    have hl : ¬ messages.length = 0 := by simpa using hne
    have hp := putCalls_putMessages sqso messages d
    have hrun : sqso.funcPutMessages unmarshal messages indexName
        = (.putMessages messages d :: (sqso.putMessages messages d).1,
            (sqso.putMessages messages d).2) := by
      simp [sqsOut.funcPutMessages, deferRecover, hl, hs, he]
    refine ⟨hrun, ?_, ?_, ?_, ?_⟩
    · rw [hrun]; simp [decodeCalls, hp.2]
    · rw [hrun]; simp [putCalls, hp.1]
    · rw [hrun]
      simpa [sendCalls] using sqs_putMessages_sendCalls_prefix sqso messages d
    · intro client hc hok
      rw [hrun, sqs_putMessages_with_client sqso client messages d hc hne,
        sendLoop_all_returned sqso client d hok messages]
  · intro mo mgo unmarshal messages collection d b hne hs he
    have hl : ¬ messages.length = 0 := by simpa using hne
    have hp := mongoPutCalls_putMessages mo mgo messages d
    have hrun : mo.funcPutMessages mgo unmarshal messages collection
        = { mo := (mo.putMessages mgo messages d).mo,
            trace := .putMessages messages d :: (mo.putMessages mgo messages d).trace,
            result := (mo.putMessages mgo messages d).result } := by
      simp [mongOut.funcPutMessages, deferRecover, hl, hs, he]
    refine ⟨hrun, ?_, ?_, ?_, ?_⟩
    · rw [hrun]; simp [mongoDecodeCalls, hp.2]
    · rw [hrun]; simp [mongoPutCalls, hp.1]
    · rw [hrun]
      simpa [bulkCalls] using bulkCalls_putMessages mo mgo messages d
    · intro session hsess hdocs
      rw [hrun]
      have hlen : 0 < (messages.filter (fun msg => decide (msg ≠ ""))).length :=
        List.length_pos.mpr hdocs
      simp only [mongOut.putMessages, deferRecover, hl, if_false, mongOut.Connect, hsess]
      simp only [gt_iff_lt, hlen, if_true]
      split <;> simp

/-- Witness of C5: the static path `events` with a batch holding a payload that is
not valid JSON and an empty payload. -/
theorem static_path_sends_whole_batch_once_witness :
    (["a", "not json", "", "c"] ≠ [] ∧ eventsPath.isStatic = true
      ∧ eventsPath.eval .null = .ok (.string "events"))
    ∧ sqsOut.funcPutMessages ⟨some okClient, none, [], 0, eventsPath⟩ scenarioUnmarshal
          ["a", "not json", "", "c"] ""
        = ([.putMessages ["a", "not json", "", "c"] "events",
            .sendMessage ⟨"a", "events", 0, []⟩, .sendMessage ⟨"not json", "events", 0, []⟩,
            .sendMessage ⟨"c", "events", 0, []⟩], .returned ())
    ∧ (mongOut.funcPutMessages ⟨"localhost", "logs", 0, eventsPathS, some okSession⟩ okDriver
          scenarioUnmarshal ["a", "not json", "", "c"] "").trace
        = [.putMessages ["a", "not json", "", "c"] "events",
            .bulkRun 1 "logs" "events" ["a", "not json", "c"]] :=
  ⟨⟨by decide, rfl, rfl⟩,
    (static_path_sends_whole_batch_once.1 ⟨some okClient, none, [], 0, eventsPath⟩
      scenarioUnmarshal ["a", "not json", "", "c"] "" "events" (by decide) rfl rfl).2.2.2.2
      okClient rfl (fun _ => rfl),
    (static_path_sends_whole_batch_once.2 ⟨"localhost", "logs", 0, eventsPathS, some okSession⟩
      okDriver scenarioUnmarshal ["a", "not json", "", "c"] "" "events" true (by decide) rfl
      rfl).2.2.2.2 okSession rfl (by decide)⟩

/-- C6: under a dynamic path, a message whose payload does not decode, or whose
path evaluation fails or yields a value that is no string, leaves the map built by
`sqsOut.funcPutMessages` as it is for the batch without that message, wherever the
message stands in the batch; the same holds for the map of
`mongOut.funcPutMessages` and a message that does not decode or whose evaluation
fails. -/
theorem undecodable_message_leaves_groups_unchanged :
    (∀ (sqso : sqsOut) (unmarshal : Unmarshal) (pre post : List Message) (msg : Message),
      ((∃ e, unmarshal msg = .error e)
        ∨ ∃ data, unmarshal msg = .ok data
            ∧ ((∃ e, sqso.queuePath.eval data = .error e)
              ∨ ∃ v, sqso.queuePath.eval data = .ok v ∧ ∀ s, v ≠ .string s)) →
      sqso.queues unmarshal (pre ++ msg :: post) = sqso.queues unmarshal (pre ++ post)
      ∧ ∀ d, msg ∉ (sqso.queues unmarshal (pre ++ msg :: post)).get d)
    ∧ (∀ (mo : mongOut) (unmarshal : Unmarshal) (pre post : List Message) (msg : Message),
      ((∃ e, unmarshal msg = .error e)
        ∨ ∃ data, unmarshal msg = .ok data ∧ ∃ e, mo.collectionPath.eval data = .error e) →
      mo.collections unmarshal (pre ++ msg :: post) = mo.collections unmarshal (pre ++ post)
      ∧ ∀ d, msg ∉ (mo.collections unmarshal (pre ++ msg :: post)).get d) := by
  constructor
  · intro sqso unmarshal pre post msg h
    have hd : sqsOut.destinationOf sqso.queuePath unmarshal msg = none := by
      by_cases he : msg = ""
      · simp [sqsOut.destinationOf, he]
      · rcases h with ⟨e, hu⟩ | ⟨data, hu, ⟨e, hv⟩ | ⟨v, hv, hs⟩⟩
        · simp [sqsOut.destinationOf, he, hu]
        · simp [sqsOut.destinationOf, he, hu, hv]
        · cases v <;> simp_all [sqsOut.destinationOf]
    have heq : sqso.queues unmarshal (pre ++ msg :: post)
        = sqso.queues unmarshal (pre ++ post) := by
      rw [sqs_queues_eq, sqs_queues_eq]
      exact groupWith_skip _ msg hd post pre []
    refine ⟨heq, fun d => ?_⟩
    rw [sqs_queues_eq, (groupWith_partition _ _).1 d]
    simp [List.mem_filter, hd]
  · intro mo unmarshal pre post msg h
    have hd : mongOut.destinationOf mo.collectionPath unmarshal msg = none := by
      by_cases he : msg = ""
      · simp [mongOut.destinationOf, he]
      · rcases h with ⟨e, hu⟩ | ⟨data, hu, e, hv⟩
        · simp [mongOut.destinationOf, he, hu]
        · simp [mongOut.destinationOf, he, hu, hv]
    refine ⟨?_, fun d => ?_⟩
    · rw [mongo_collections_eq, mongo_collections_eq]
      exact groupWith_skip _ msg hd post pre []
    · rw [mongo_collections_eq, (groupWith_partition _ _).1 d]
      simp [List.mem_filter, hd]

/-- Witness of C6: the payload `not json` between two tenant documents. -/
theorem undecodable_message_leaves_groups_unchanged_witness :
    scenarioUnmarshal "not json" = .error "invalid character"
    ∧ (sqsOut.queues (tenantSink none) scenarioUnmarshal
          ([tenantMsg1] ++ "not json" :: [tenantMsg2])
        = sqsOut.queues (tenantSink none) scenarioUnmarshal ([tenantMsg1] ++ [tenantMsg2])
      ∧ ∀ d, "not json" ∉ (sqsOut.queues (tenantSink none) scenarioUnmarshal
          ([tenantMsg1] ++ "not json" :: [tenantMsg2])).get d) :=
  ⟨rfl,
    undecodable_message_leaves_groups_unchanged.1 (tenantSink none) scenarioUnmarshal
      [tenantMsg1] [tenantMsg2] "not json" (Or.inl ⟨"invalid character", rfl⟩)⟩

/-! ## Claims on the connection guard -/

/-- C7: starting with no handle, when the PING of the acquired connection returns
an error, or a reply that is not a string, or a string that is not PONG after
upper-casing, `redisIO.Connect` returns normally, leaves the handle absent and
closes that connection; a following `Connect` whose acquired connection answers
PONG without error, and whose `connFunc` (if set) returns no error, stores that
connection as the handle. -/
theorem connect_reconnects_after_failed_probe
    ( rio : redisIO) (get1 get2 : String → String → String → Option Conn) (c1 c2 : Conn)
    (rep1 : Reply) (e1 : Option String) (s2 : String)
    (hnone : rio.conn = none)
    (hget1 : get1 rio.poolName rio.server rio.password = some c1)
    (hping1 : c1.doCmd .ping = .returned (rep1, e1))
    (hfail : e1 ≠ none ∨ ∀ s, rep1 = .string s → ToUpper s ≠ "PONG")
    (hget2 : get2 rio.poolName rio.server rio.password = some c2)
    (hping2 : c2.doCmd .ping = .returned (.string s2, none))
    (hpong : ToUpper s2 = "PONG")
    (hfunc : ∀ cfn, rio.connFunc = some cfn → cfn c2 = .returned none) :
    (rio.Connect get1).result = .returned ()
    ∧ (rio.Connect get1).rio.conn = none
    ∧ RedisEvent.connClose c1.id ∈ (rio.Connect get1).trace
    ∧ ((rio.Connect get1).rio.Connect get2).result = .returned ()
    ∧ ((rio.Connect get1).rio.Connect get2).rio.conn = some c2 := by
  have hp1 : ∃ e, (rio.ping (some c1)).2 = some e := by
    simp only [ redisIO.ping, hping1, recoverUnnamed]
    rcases hfail with h | h
    · cases e1 with
      | none => exact absurd rfl h
      | some e => exact ⟨e, by simp⟩
    · cases e1 with
      | some e => exact ⟨e, by simp⟩
      | none =>
        cases rep1 with
        | nil => exact ⟨"Unable to ping Redis", by simp⟩
        | other => exact ⟨"Unable to ping Redis", by simp⟩
        | string s => exact ⟨"Unable to ping Redis", by simp [h s rfl]⟩
  obtain ⟨e, hp1⟩ := hp1
  have hstep : rio.Connect get1 =
      { rio := { rio with conn := none },
        trace := RedisEvent.getRedisConnection rio.poolName rio.server rio.password
          :: (rio.selectDb c1).1 ++ (rio.ping (some c1)).1 ++ (rio.tryToCloseConn (some c1)).1,
        result := .returned () } := by
    simp [ redisIO.Connect, redisIO.acquire, redisIO.connectDeferred, hnone, hget1, hp1]
  have hrio : ({ rio with conn := none } : redisIO) = rio := by
    cases rio; simp_all
  have hp2 : ∀ r : redisIO, (r.ping (some c2)).2 = none := by
    intro r
    simp [ redisIO.ping, hping2, recoverUnnamed, hpong]
  have hcf : (rio.runConnFunc c2).2 = .returned none := by
    unfold redisIO.runConnFunc
    cases hc : rio.connFunc with
    | none => rfl
    | some cfn => simp [hfunc cfn hc]
  rw [hstep]
  simp only [hrio]
  refine ⟨trivial, trivial, ?_, ?_, ?_⟩
  · simp [ redisIO.tryToCloseConn]
  · simp [ redisIO.Connect, redisIO.acquire, redisIO.connectDeferred, hnone, hget2, hp2, hcf]
  · simp [ redisIO.Connect, redisIO.acquire, redisIO.connectDeferred, hnone, hget2, hp2, hcf]

/-- Witness of C7: a first connection whose PING returns an error, then a
connection that answers PONG. -/
theorem connect_reconnects_after_failed_probe_witness :
    (freshRedis.Connect (fun _ _ _ => some deadConn)).result = .returned ()
    ∧ (freshRedis.Connect (fun _ _ _ => some deadConn)).rio.conn = none
    ∧ RedisEvent.connClose deadConn.id ∈ (freshRedis.Connect (fun _ _ _ => some deadConn)).trace
    ∧ ((freshRedis.Connect (fun _ _ _ => some deadConn)).rio.Connect
        (fun _ _ _ => some liveConn)).result = .returned ()
    ∧ ((freshRedis.Connect (fun _ _ _ => some deadConn)).rio.Connect
        (fun _ _ _ => some liveConn)).rio.conn = some liveConn :=
  connect_reconnects_after_failed_probe freshRedis (fun _ _ _ => some deadConn)
    (fun _ _ _ => some liveConn) deadConn liveConn .nil (some "EOF") "PONG" rfl rfl rfl
    (Or.inl (by simp)) rfl rfl (by decide) (fun cfn h => by cases h)

/-- C8, evaluated on the code: a panic of `conn.Do("PING")` makes `redisIO.ping`
return nil, and `Connect` then stores the faulting connection as the handle; a
panic of `conn.Do("SELECT", db)` makes `selectDb` return nil; a panic of the
`connFunc` callback makes `runConnFunc` close the connection and return nil, and
`Connect` then stores that closed connection as the handle. -/
theorem panic_in_guard_helper_is_returned_as_nil :
    (freshRedis.ping (some panickingConn)).2 = none
    ∧ (freshRedis.Connect (fun _ _ _ => some panickingConn)).rio.conn = some panickingConn
    ∧ (freshRedis.Connect (fun _ _ _ => some panickingConn)).result = .returned ()
    ∧ (freshRedis.selectDb selectPanicConn).2 = none
    ∧ ( redisIO.runConnFunc { freshRedis with connFunc := some panickingConnFunc } liveConn)
        = ([.connFunc 2, .connClose 2], .returned none)
    ∧ ( redisIO.Connect { freshRedis with connFunc := some panickingConnFunc }
          (fun _ _ _ => some liveConn)).rio.conn = some liveConn
    ∧ RedisEvent.connClose liveConn.id
        ∈ ( redisIO.Connect { freshRedis with connFunc := some panickingConnFunc }
          (fun _ _ _ => some liveConn)).trace := by
  refine ⟨rfl, rfl, rfl, rfl, rfl, rfl, by decide⟩

/-- C9: when the handle is present and its `Err()` is nil, `redisIO.Connect`
leaves the guard unchanged and its only call is that `Err()`: it acquires no
connection, issues no SELECT or PING and closes nothing; `mongOut.Connect` with a
present session makes no call at all, leaves the sink unchanged and returns nil. -/
theorem connect_reuses_present_handle :
    (∀ ( rio : redisIO) (getRedisConnection : String → String → String → Option Conn)
        (conn : Conn),
      rio.conn = some conn → conn.err = none →
      (rio.Connect getRedisConnection).rio = rio
      ∧ (rio.Connect getRedisConnection).trace = [.connErr conn.id]
      ∧ (rio.Connect getRedisConnection).result = .returned ())
    ∧ (∀ (mo : mongOut) (mgo : MgoDriver) (session : Session),
      mo.session = some session →
      (mo.Connect mgo).mo = mo
      ∧ (mo.Connect mgo).trace = []
      ∧ (mo.Connect mgo).result = .returned none) := by
  constructor
  · intro rio getRedisConnection conn hc he
    simp [ redisIO.Connect, redisIO.connectDeferred, hc, he]
  · intro mo mgo session hs
    simp [mongOut.Connect, hs]

/-- Witness of C9: a guard holding a live connection, a sink holding a session. -/
theorem connect_reuses_present_handle_witness :
    (( redisIO.Connect { freshRedis with conn := some liveConn }
        (fun _ _ _ => some deadConn)).rio = { freshRedis with conn := some liveConn }
      ∧ ( redisIO.Connect { freshRedis with conn := some liveConn }
        (fun _ _ _ => some deadConn)).trace = [.connErr liveConn.id]
      ∧ ( redisIO.Connect { freshRedis with conn := some liveConn }
        (fun _ _ _ => some deadConn)).result = .returned ())
    ∧ ((mongOut.Connect (tenantMongo (some okSession)) okDriver).mo
        = tenantMongo (some okSession)
      ∧ (mongOut.Connect (tenantMongo (some okSession)) okDriver).trace = []
      ∧ (mongOut.Connect (tenantMongo (some okSession)) okDriver).result = .returned none) :=
  ⟨connect_reuses_present_handle.1 { freshRedis with conn := some liveConn }
      (fun _ _ _ => some deadConn) liveConn rfl rfl,
    connect_reuses_present_handle.2 (tenantMongo (some okSession)) okDriver okSession rfl⟩

theorem redis_afterClose_absent ( rio : redisIO) (h : rio.conn = none) :
    rio.funcAfterClose = { rio := rio, trace := [], result := .returned () } := by
  simp [ redisIO.funcAfterClose, deferRecover, h]

theorem redis_afterCloseTimes_absent (n : Nat) ( rio : redisIO) (h : rio.conn = none) :
    redisIO.afterCloseTimes n rio = (rio, []) := by
  induction n with
  | zero => rfl
  | succ k ih => simp [ redisIO.afterCloseTimes, redis_afterClose_absent rio h, ih]

theorem mongo_afterClose_absent (mo : mongOut) (h : mo.session = none) :
    mo.funcAfterClose = { mo := mo, trace := [], result := .returned () } := by
  simp [mongOut.funcAfterClose, h]

theorem mongo_afterCloseTimes_absent (n : Nat) (mo : mongOut) (h : mo.session = none) :
    mongOut.afterCloseTimes n mo = (mo, []) := by
  induction n with
  | zero => rfl
  | succ k ih => simp [mongOut.afterCloseTimes, mongo_afterClose_absent mo h, ih]

/-- C10: with a present handle, the first `funcAfterClose` of `redisIO` (of
`mongOut`) calls `Close` on the handle once and sets the handle to absent; with an
absent handle `funcAfterClose` makes no call and leaves the state unchanged; and
`n ≥ 1` consecutive calls make exactly one call, the `Close` of the handle, and
end with the handle absent. -/
theorem afterClose_closes_handle_exactly_once :
    (∀ ( rio : redisIO) (conn : Conn) (n : Nat), rio.conn = some conn → 1 ≤ n →
      rio.funcAfterClose.rio = { rio with conn := none }
      ∧ rio.funcAfterClose.trace = [.connClose conn.id]
      ∧ ( redisIO.funcAfterClose rio.funcAfterClose.rio).rio = rio.funcAfterClose.rio
      ∧ ( redisIO.funcAfterClose rio.funcAfterClose.rio).trace = []
      ∧ ( redisIO.afterCloseTimes n rio).1 = { rio with conn := none }
      ∧ ( redisIO.afterCloseTimes n rio).2 = [.connClose conn.id]
      ∧ closeCount conn.id ( redisIO.afterCloseTimes n rio).2 = 1)
    ∧ (∀ (mo : mongOut) (session : Session) (n : Nat), mo.session = some session → 1 ≤ n →
      mo.funcAfterClose.mo = { mo with session := none }
      ∧ mo.funcAfterClose.trace = [.sessionClose session.id]
      ∧ (mongOut.funcAfterClose mo.funcAfterClose.mo).mo = mo.funcAfterClose.mo
      ∧ (mongOut.funcAfterClose mo.funcAfterClose.mo).trace = []
      ∧ (mongOut.afterCloseTimes n mo).1 = { mo with session := none }
      ∧ (mongOut.afterCloseTimes n mo).2 = [.sessionClose session.id]) := by
  constructor
  · intro rio conn n hc hn
    have h1 : rio.funcAfterClose.rio = { rio with conn := none } := by
      simp [ redisIO.funcAfterClose, deferRecover, hc]
    have h2 : rio.funcAfterClose.trace = [.connClose conn.id] := by
      simp [ redisIO.funcAfterClose, deferRecover, hc]
    have h3 := redis_afterClose_absent { rio with conn := none } rfl
    obtain ⟨k, rfl⟩ : ∃ k, n = k + 1 := ⟨n - 1, by omega⟩
    have h4 : redisIO.afterCloseTimes (k + 1) rio
        = ({ rio with conn := none }, [.connClose conn.id]) := by
      simp [ redisIO.afterCloseTimes, h1, h2,
        redis_afterCloseTimes_absent k { rio with conn := none } rfl]
    rw [h1, h2, h3, h4]
    simp [closeCount]
  · intro mo session n hs hn
    have h1 : mo.funcAfterClose.mo = { mo with session := none } := by
      simp [mongOut.funcAfterClose, deferRecover, hs]
    have h2 : mo.funcAfterClose.trace = [.sessionClose session.id] := by
      simp [mongOut.funcAfterClose, deferRecover, hs]
    have h3 := mongo_afterClose_absent { mo with session := none } rfl
    obtain ⟨k, rfl⟩ : ∃ k, n = k + 1 := ⟨n - 1, by omega⟩
    have h4 : mongOut.afterCloseTimes (k + 1) mo
        = ({ mo with session := none }, [.sessionClose session.id]) := by
      simp [mongOut.afterCloseTimes, h1, h2,
        mongo_afterCloseTimes_absent k { mo with session := none } rfl]
    rw [h1, h2, h3, h4]
    simp

/-- Witness of C10: three consecutive calls on a guard holding a connection. -/
theorem afterClose_closes_handle_exactly_once_witness :
    ( redisIO.afterCloseTimes 3 { freshRedis with conn := some liveConn }).2
        = [.connClose liveConn.id]
    ∧ closeCount liveConn.id
        ( redisIO.afterCloseTimes 3 { freshRedis with conn := some liveConn }).2 = 1
    ∧ (mongOut.afterCloseTimes 3 (tenantMongo (some okSession))).2
        = [.sessionClose okSession.id] :=
  ⟨(afterClose_closes_handle_exactly_once.1 { freshRedis with conn := some liveConn }
      liveConn 3 rfl (by decide)).2.2.2.2.2.1,
    (afterClose_closes_handle_exactly_once.1 { freshRedis with conn := some liveConn }
      liveConn 3 rfl (by decide)).2.2.2.2.2.2,
    (afterClose_closes_handle_exactly_once.2 (tenantMongo (some okSession))
      okSession 3 rfl (by decide)).2.2.2.2.2⟩

theorem indexHashKeys_in_range (keys : List String) (i : Int) (h0 : 0 ≤ i)
    (h1 : i < keys.length) :
    ∃ key, keys.get? i.toNat = some key ∧ indexHashKeys keys i = .returned key := by
  have hlt : i.toNat < keys.length := by omega
  refine ⟨keys[i.toNat], ?_, ?_⟩
  · simp [List.get?_eq_getElem?, List.getElem?_eq_getElem hlt]
  · simp [indexHashKeys, h0, h1, List.get?_eq_getElem?, List.getElem?_eq_getElem hlt]

theorem recordLoop_rotation (compress : Message → Message) (client : Option Kinesis)
    (connFunc : Option (Unit → Option Kinesis)) (compressed : Bool) (stream pk : String)
    (keys : List String) (h2 : 2 ≤ keys.length) :
    ∀ (messages : List Message) (i : Int), 0 ≤ i → i < keys.length →
      kinesisOut.recordLoop compress ⟨client, connFunc, compressed, i, stream, pk, keys⟩ messages
        = (⟨client, connFunc, compressed,
              (i + ((messages.filter (fun msg => decide (msg ≠ ""))).length : Int)) % keys.length,
              stream, pk, keys⟩,
            .returned (List.zipWith
              (fun msg (k : Nat) =>
                (⟨if compressed then compress msg else msg, pk,
                  keys.get? ((i + (k : Int)) % (keys.length : Int)).toNat⟩ :
                    PutRecordsRequestEntry))
              (messages.filter (fun msg => decide (msg ≠ "")))
              (List.range (messages.filter (fun msg => decide (msg ≠ ""))).length))) := by
  intro messages
  induction messages with
  | nil =>
    intro i h0 h1
    simp [kinesisOut.recordLoop, Int.emod_eq_of_lt h0 h1]
  | cons msg rest ih =>
    intro i h0 h1
    by_cases he : msg = ""
    · simp [kinesisOut.recordLoop, he, ih i h0 h1]
    · obtain ⟨key, hk, hidx⟩ := indexHashKeys_in_range keys i h0 h1
      have hpos : (0 : Int) < keys.length := by omega
      have hne1 : ¬ ((keys.length : Int) = 1) := by omega
      have hne1' : ¬ (keys.length = 1) := by omega
      have htm : Int.tmod (i + 1) keys.length = (i + 1) % keys.length :=
        Int.tmod_eq_emod (by omega) (by omega)
      have h0' : 0 ≤ (i + 1) % (keys.length : Int) := Int.emod_nonneg _ (by omega)
      have h1' : (i + 1) % (keys.length : Int) < keys.length := Int.emod_lt_of_pos _ hpos
      have hshift : ∀ k : Int, ((i + 1) % (keys.length : Int) + k) % (keys.length : Int)
          = (i + (k + 1)) % (keys.length : Int) := by
        intro k
        rw [Int.emod_add_emod]
        congr 1
        omega
      have hf : (msg :: rest).filter (fun msg => decide (msg ≠ ""))
          = msg :: rest.filter (fun msg => decide (msg ≠ "")) := by
        simp [List.filter_cons, he]
      have hk' : keys.get? ((i + ((0 : Nat) : Int)) % (keys.length : Int)).toNat = some key := by
        simpa [Int.emod_eq_of_lt h0 h1] using hk
      rw [hf, List.length_cons, List.range_succ_eq_map, List.zipWith_cons_cons,
        List.zipWith_map_right]
      simp only [kinesisOut.recordLoop, he, ne_eq, not_false_eq_true, if_true, hpos, gt_iff_lt,
        hne1, if_false, hidx, htm, ih _ h0' h1', hshift, hk']
      refine Prod.ext ?_ ?_
      · simp only [Nat.cast_add, Nat.cast_one]
      · simp only [Nat.succ_eq_add_one, Nat.cast_add, Nat.cast_one, Function.comp_def]

theorem recordLoop_single_key (compress : Message → Message) (client : Option Kinesis)
    (connFunc : Option (Unit → Option Kinesis)) (compressed : Bool) (stream pk : String)
    (keys : List String) (h1 : keys.length = 1) (i : Int) (messages : List Message) :
    kinesisOut.recordLoop compress ⟨client, connFunc, compressed, i, stream, pk, keys⟩ messages
      = (⟨client, connFunc, compressed, i, stream, pk, keys⟩,
          .returned ((messages.filter (fun msg => decide (msg ≠ ""))).map
            (fun msg => (⟨if compressed then compress msg else msg, pk, keys.get? 0⟩ :
              PutRecordsRequestEntry)))) := by
  obtain ⟨key, hk, hidx⟩ := indexHashKeys_in_range keys 0 (le_refl 0) (by omega)
  have hk0 : keys[0]? = some key := by simpa [List.get?_eq_getElem?] using hk
  induction messages with
  | nil => simp [kinesisOut.recordLoop]
  | cons msg rest ih =>
    by_cases he : msg = ""
    · simp [kinesisOut.recordLoop, he, ih]
    · simp [kinesisOut.recordLoop, he, ih, h1, hidx, hk0, List.filter_cons, List.get?_eq_getElem?]

theorem recordLoop_no_key (compress : Message → Message) (client : Option Kinesis)
    (connFunc : Option (Unit → Option Kinesis)) (compressed : Bool) (stream pk : String)
    (i : Int) (messages : List Message) :
    kinesisOut.recordLoop compress ⟨client, connFunc, compressed, i, stream, pk, []⟩ messages
      = (⟨client, connFunc, compressed, i, stream, pk, []⟩,
          .returned ((messages.filter (fun msg => decide (msg ≠ ""))).map
            (fun msg => (⟨if compressed then compress msg else msg, pk, none⟩ :
              PutRecordsRequestEntry)))) := by
  induction messages with
  | nil => simp [kinesisOut.recordLoop]
  | cons msg rest ih =>
    by_cases he : msg = ""
    · simp [kinesisOut.recordLoop, he, ih]
    · simp [kinesisOut.recordLoop, he, ih, List.filter_cons]

theorem kinesis_funcPutMessages_with_client (ko : kinesisOut) (client : Kinesis)
    (compress : Message → Message) (messages : List Message) (indexName : String)
    (hc : ko.client = some client) :
    (ko.funcPutMessages compress messages indexName).ko
        = (kinesisOut.recordLoop compress ko messages).1
    ∧ ∀ records, (kinesisOut.recordLoop compress ko messages).2 = .returned records →
        recordsSent (ko.funcPutMessages compress messages indexName).trace
          = if records.length > 0 then [records] else [] := by
  cases messages with
  | nil =>
    refine ⟨by simp [kinesisOut.funcPutMessages, kinesisOut.recordLoop], ?_⟩
    intro records hr
    simp only [kinesisOut.recordLoop, Outcome.returned.injEq] at hr
    subst hr
    simp [kinesisOut.funcPutMessages, recordsSent]
  | cons msg rest =>
    have hg : ko.getClient = .returned (some client) := by
      simp [kinesisOut.getClient, hc]
    constructor
    · simp only [kinesisOut.funcPutMessages, deferRecover, hg, List.length_cons]
      cases hb : (kinesisOut.recordLoop compress ko (msg :: rest)).2 with
      | panicked v => simp
      | returned records => by_cases hl : records.length > 0 <;> simp [hl]
    · intro records hr
      simp only [kinesisOut.funcPutMessages, deferRecover, hg, List.length_cons, hr]
      by_cases hl : records.length > 0 <;> simp [hl, recordsSent]

/-! ## Claims on the Kinesis hash keys -/

/-- C13, counterexample: a sink as `newKinesisOut` leaves it (client absent,
factory set) with two hash keys and index 0 satisfies the premises of the claim,
but `funcPutMessages` with one non-empty message returns at the guard
`client == nil`: nothing is sent and the index stays 0, which is not
`(0 + 1) mod 2`. -/
theorem hash_key_index_stays_without_client :
    (2 : Int) ≤ freshKinesis.explicitHashKeys.length
    ∧ 0 ≤ freshKinesis.hashKeyIndex
    ∧ freshKinesis.hashKeyIndex < freshKinesis.explicitHashKeys.length
    ∧ (["m1"].filter (fun msg => decide (msg ≠ ""))).length = 1
    ∧ (freshKinesis.funcPutMessages id ["m1"] "").trace = []
    ∧ (freshKinesis.funcPutMessages id ["m1"] "").ko.hashKeyIndex = 0
    ∧ (freshKinesis.funcPutMessages id ["m1"] "").ko.hashKeyIndex
        ≠ (freshKinesis.hashKeyIndex + 1) % (freshKinesis.explicitHashKeys.length : Int) := by
  refine ⟨by decide, by decide, by decide, by decide, by decide, by decide, by decide⟩

/-- C13, amended: for a `kinesisOut` whose client is present, with
`keyLen = len(explicitHashKeys)` and `m` non-empty messages in the batch:
when `keyLen ≥ 2` and `0 ≤ hashKeyIndex < keyLen`, the loop of `funcPutMessages`
ends without an index out of range, the record of the `k`-th non-empty message
carries the key `explicitHashKeys[(i0 + k) mod keyLen]` (an index inside the
list), these records are what `PutRecords` receives, and the sink ends with
`hashKeyIndex = (i0 + m) mod keyLen`, again within `0 ≤ · < keyLen`; when
`keyLen = 1` every record carries `explicitHashKeys[0]`, when `keyLen = 0` no
record carries a key, and in both cases the sink is unchanged. -/
theorem hash_key_rotation_with_client (ko : kinesisOut) (client : Kinesis)
    (compress : Message → Message) (messages : List Message) (indexName : String)
    (hc : ko.client = some client) :
    ((2 : Int) ≤ ko.explicitHashKeys.length → 0 ≤ ko.hashKeyIndex →
      ko.hashKeyIndex < ko.explicitHashKeys.length →
      (kinesisOut.recordLoop compress ko messages).2
          = .returned (List.zipWith
              (fun msg (k : Nat) =>
                (⟨if ko.compressed then compress msg else msg, ko.partitionKey,
                  ko.explicitHashKeys.get?
                    ((ko.hashKeyIndex + (k : Int)) % (ko.explicitHashKeys.length : Int)).toNat⟩ :
                      PutRecordsRequestEntry))
              (messages.filter (fun msg => decide (msg ≠ "")))
              (List.range (messages.filter (fun msg => decide (msg ≠ ""))).length))
      ∧ (∀ k : Nat, ∃ key, ko.explicitHashKeys.get?
            ((ko.hashKeyIndex + (k : Int)) % (ko.explicitHashKeys.length : Int)).toNat = some key)
      ∧ (messages.filter (fun msg => decide (msg ≠ "")) ≠ [] →
          recordsSent (ko.funcPutMessages compress messages indexName).trace
            = [List.zipWith
              (fun msg (k : Nat) =>
                (⟨if ko.compressed then compress msg else msg, ko.partitionKey,
                  ko.explicitHashKeys.get?
                    ((ko.hashKeyIndex + (k : Int)) % (ko.explicitHashKeys.length : Int)).toNat⟩ :
                      PutRecordsRequestEntry))
              (messages.filter (fun msg => decide (msg ≠ "")))
              (List.range (messages.filter (fun msg => decide (msg ≠ ""))).length)])
      ∧ (ko.funcPutMessages compress messages indexName).ko
          = { ko with hashKeyIndex :=
                (ko.hashKeyIndex + ((messages.filter (fun msg => decide (msg ≠ ""))).length : Int))
                  % (ko.explicitHashKeys.length : Int) }
      ∧ 0 ≤ (ko.funcPutMessages compress messages indexName).ko.hashKeyIndex
      ∧ (ko.funcPutMessages compress messages indexName).ko.hashKeyIndex
          < ko.explicitHashKeys.length)
    ∧ (ko.explicitHashKeys.length = 1 →
      (kinesisOut.recordLoop compress ko messages).2
          = .returned ((messages.filter (fun msg => decide (msg ≠ ""))).map
              (fun msg => (⟨if ko.compressed then compress msg else msg, ko.partitionKey,
                ko.explicitHashKeys.get? 0⟩ : PutRecordsRequestEntry)))
      ∧ (∃ key, ko.explicitHashKeys.get? 0 = some key)
      ∧ (ko.funcPutMessages compress messages indexName).ko = ko)
    ∧ (ko.explicitHashKeys.length = 0 →
      (kinesisOut.recordLoop compress ko messages).2
          = .returned ((messages.filter (fun msg => decide (msg ≠ ""))).map
              (fun msg => (⟨if ko.compressed then compress msg else msg, ko.partitionKey,
                none⟩ : PutRecordsRequestEntry)))
      ∧ (ko.funcPutMessages compress messages indexName).ko = ko) := by
  have hfp := kinesis_funcPutMessages_with_client ko client compress messages indexName hc
  obtain ⟨cl, connFunc, compressed, i, stream, pk, keys⟩ := ko
  refine ⟨fun h2 h0 h1 => ?_, fun h1 => ?_, fun h0 => ?_⟩
  · have h2' : 2 ≤ keys.length := by simpa using h2
    have hpos : (0 : Int) < keys.length := by simpa using (by omega : 0 < keys.length)
    have hrot := recordLoop_rotation compress cl connFunc compressed stream pk keys h2'
      messages i h0 h1
    simp only at h0 h1 hfp ⊢
    rw [hrot] at hfp
    rw [hrot]
    refine ⟨rfl, fun k => ?_, fun hne => ?_, hfp.1, ?_, ?_⟩
    · have hb0 : 0 ≤ (i + (k : Int)) % (keys.length : Int) := Int.emod_nonneg _ (by omega)
      have hb1 : (i + (k : Int)) % (keys.length : Int) < keys.length :=
        Int.emod_lt_of_pos _ hpos
      obtain ⟨key, hk, _⟩ := indexHashKeys_in_range keys _ hb0 hb1
      exact ⟨key, hk⟩
    · rw [hfp.2 _ rfl]
      have hlen : 0 < (messages.filter (fun msg => decide (msg ≠ ""))).length :=
        List.length_pos.mpr hne
      rw [if_pos]
      simp only [gt_iff_lt, List.length_zipWith, List.length_range, Nat.min_self]
      exact hlen
    · rw [hfp.1]
      exact Int.emod_nonneg _ (by omega)
    · rw [hfp.1]
      exact Int.emod_lt_of_pos _ hpos
  · simp only at h1 hfp ⊢
    have hone := recordLoop_single_key compress cl connFunc compressed stream pk keys h1 i
      messages
    rw [hone] at hfp
    rw [hone]
    obtain ⟨key, hk, _⟩ := indexHashKeys_in_range keys 0 (le_refl 0) (by omega)
    exact ⟨rfl, ⟨key, by simpa using hk⟩, hfp.1⟩
  · simp only at h0 hfp ⊢
    have hnil : keys = [] := List.eq_nil_of_length_eq_zero h0
    subst hnil
    have hzero := recordLoop_no_key compress cl connFunc compressed stream pk i messages
    rw [hzero] at hfp
    rw [hzero]
    exact ⟨rfl, hfp.1⟩

/-- Witness of C13 as amended: three keys, index 2, four non-empty messages and
an empty one. -/
theorem hash_key_rotation_with_client_witness :
    recordsSent (rotatingKinesis.funcPutMessages id ["m1", "", "m2", "m3", "m4"] "").trace
        = [[⟨"m1", "pk", some "c"⟩, ⟨"m2", "pk", some "a"⟩, ⟨"m3", "pk", some "b"⟩,
            ⟨"m4", "pk", some "c"⟩]]
    ∧ (rotatingKinesis.funcPutMessages id ["m1", "", "m2", "m3", "m4"] "").ko.hashKeyIndex = 0
    ∧ 0 ≤ (rotatingKinesis.funcPutMessages id ["m1", "", "m2", "m3", "m4"] "").ko.hashKeyIndex
    ∧ (rotatingKinesis.funcPutMessages id ["m1", "", "m2", "m3", "m4"] "").ko.hashKeyIndex
        < rotatingKinesis.explicitHashKeys.length :=
  ⟨by decide, by decide,
    ((hash_key_rotation_with_client rotatingKinesis okKinesis id ["m1", "", "m2", "m3", "m4"] ""
      rfl).1 (by decide) (by decide) (by decide)).2.2.2.2⟩


/-! ## Claims on construction and on the stop endpoints -/

theorem trimSpace_empty : TrimSpace "" = "" := by decide

theorem newRedisIO_eq_some (logger : Option Logger) (id : String)
    (unrepresentable : Float64 → Int) (params : Params) ( rio : redisIO)
    (h : newRedisIO logger (.ok id) unrepresentable (some params) = some rio) :
    ∃ s c, params.lookup "server" = some (.string s) ∧ TrimSpace s ≠ ""
      ∧ params.lookup "channel" = some (.string c) ∧ TrimSpace c ≠ ""
      ∧ rio.server = TrimSpace s ∧ rio.channel = TrimSpace c
      ∧ rio.db = (match paramFloat64 params "db" with
          | some f => MinInt 15 (MaxInt 0 (f.toInt unrepresentable))
          | none => 0) := by
  unfold newRedisIO at h
  simp only at h
  cases hs : params.lookup "server" with
  | none => simp [paramString, hs] at h
  | some v =>
    cases v with
    | float64 n => simp [paramString, hs] at h
    | other => simp [paramString, hs] at h
    | string s =>
      by_cases hts : TrimSpace s = ""
      · simp [paramString, hs, hts] at h
      · cases hc : params.lookup "channel" with
        | none => simp [paramString, hs, hts, hc] at h
        | some w =>
          cases w with
          | float64 n => simp [paramString, hs, hts, hc] at h
          | other => simp [paramString, hs, hts, hc] at h
          | string c =>
            by_cases htc : TrimSpace c = ""
            · simp [paramString, hs, hts, hc, htc] at h
            · simp only [paramString, hs, hts, hc, htc, if_false, Option.some.injEq] at h
              subst h
              exact ⟨s, c, rfl, hts, rfl, htc, rfl, rfl, rfl⟩

theorem newRedisIO_isSome (logger : Option Logger) (id : String)
    (unrepresentable : Float64 → Int) (params : Params)
    (s c : String) (hs : params.lookup "server" = some (.string s)) (hts : TrimSpace s ≠ "")
    (hc : params.lookup "channel" = some (.string c)) (htc : TrimSpace c ≠ "") :
    ∃ rio, newRedisIO logger (.ok id) unrepresentable (some params) = some rio := by
  simp [ newRedisIO, paramString, hs, hc, hts, htc]

/-- C11: `newRedisIO` returns absent when `params` is absent, and when `server` or
`channel` is missing, holds no string, or holds a string that is empty after
`strings.TrimSpace`; when the id is generated, it returns an instance exactly when
both hold non-blank strings, and the instance then has the trimmed values as
`server` and `channel`. -/
theorem newRedisIO_absent_on_configuration_error :
    (∀ (logger : Option Logger) (newUUID : Except String String)
        (unrepresentable : Float64 → Int),
      newRedisIO logger newUUID unrepresentable none = none)
    ∧ (∀ (logger : Option Logger) (newUUID : Except String String)
        (unrepresentable : Float64 → Int) (params : Params)
        (key : String), key = "server" ∨ key = "channel" →
      (params.lookup key = none
        ∨ (∃ v, params.lookup key = some v ∧ ∀ s, v ≠ .string s)
        ∨ ∃ s, params.lookup key = some (.string s) ∧ TrimSpace s = "") →
      newRedisIO logger newUUID unrepresentable (some params) = none)
    ∧ (∀ (logger : Option Logger) (id : String) (unrepresentable : Float64 → Int)
        (params : Params),
      (∃ rio, newRedisIO logger (.ok id) unrepresentable (some params) = some rio)
        ↔ ∃ s c, params.lookup "server" = some (.string s) ∧ TrimSpace s ≠ ""
            ∧ params.lookup "channel" = some (.string c) ∧ TrimSpace c ≠ "")
    ∧ (∀ (logger : Option Logger) (id : String) (unrepresentable : Float64 → Int)
        (params : Params) ( rio : redisIO) (s c : String),
      newRedisIO logger (.ok id) unrepresentable (some params) = some rio →
      params.lookup "server" = some (.string s) → params.lookup "channel" = some (.string c) →
      rio.server = TrimSpace s ∧ rio.channel = TrimSpace c) := by
  refine ⟨fun _ _ _ => rfl, ?_, ?_, ?_⟩
  · intro logger newUUID unrepresentable params key hkey hbad
    cases newUUID with
    | error e => rfl
    | ok id =>
      cases hres : newRedisIO logger (.ok id) unrepresentable (some params) with
      | none => rfl
      | some rio =>
        exfalso
        obtain ⟨s, c, hs, hts, hc, htc, -⟩ :=
          newRedisIO_eq_some logger id unrepresentable params rio hres
        rcases hkey with rfl | rfl
        · rcases hbad with h | ⟨v, h, hv⟩ | ⟨s', h, ht⟩
          · rw [hs] at h; cases h
          · rw [hs] at h; cases h; exact hv s rfl
          · rw [hs] at h; cases h; exact hts ht
        · rcases hbad with h | ⟨v, h, hv⟩ | ⟨s', h, ht⟩
          · rw [hc] at h; cases h
          · rw [hc] at h; cases h; exact hv c rfl
          · rw [hc] at h; cases h; exact htc ht
  · intro logger id unrepresentable params
    constructor
    · rintro ⟨rio, h⟩
      obtain ⟨s, c, hs, hts, hc, htc, -⟩ :=
        newRedisIO_eq_some logger id unrepresentable params rio h
      exact ⟨s, c, hs, hts, hc, htc⟩
    · rintro ⟨s, c, hs, hts, hc, htc⟩
      exact newRedisIO_isSome logger id unrepresentable params s c hs hts hc htc
  · intro logger id unrepresentable params rio s c h hs hc
    obtain ⟨s', c', hs', _, hc', _, h1, h2, -⟩ :=
      newRedisIO_eq_some logger id unrepresentable params rio h
    rw [hs] at hs'; rw [hc] at hc'
    cases hs'; cases hc'
    exact ⟨h1, h2⟩

/-- Witness of C11: a blank `server` gives absent; padded `server` and `channel`
give an instance with the trimmed values. -/
theorem newRedisIO_absent_on_configuration_error_witness :
    newRedisIO none (.ok "0001") amd64Unrepresentable
        (some [("server", .string " \t "), ("channel", .string "logs")]) = none
    ∧ ∃ rio, newRedisIO none (.ok "0001") amd64Unrepresentable (some sampleRedisParams)
          = some rio
        ∧ rio.server = "localhost:6379" ∧ rio.channel = "logs" :=
  ⟨newRedisIO_absent_on_configuration_error.2.1 none (.ok "0001") amd64Unrepresentable
      [("server", .string " \t "), ("channel", .string "logs")] "server" (Or.inl rfl)
      (Or.inr (Or.inr ⟨" \t ", by decide, by decide⟩)),
    ⟨_, rfl, by decide, by decide⟩⟩

/-- C12: when the trimmed `id` of the request is non-empty and the manager finds an
instance under it, `stopOutput` (`stopInput`) calls `Close` on that instance and on
no other, writes the body `{"result":"ok"}` and reports no error; when the manager
is absent, or the trimmed `id` is empty, or the manager finds no instance under
it, the handler calls `Close` on no instance, writes no body and reports one error
with status 503 and a non-empty message. -/
theorem stop_by_identifier_closes_found_instance :
    (∀ (manager : InOutManager) (prms : List (String × String)) (ioc : InOutCloser),
      TrimSpace (ByName prms "id") ≠ "" →
      manager.findOutput (TrimSpace (ByName prms "id")) = some ioc →
      closeCalls (stopOutput (some manager) prms) = [ioc]
      ∧ bodies (stopOutput (some manager) prms) = [okBody]
      ∧ restErrors (stopOutput (some manager) prms) = [])
    ∧ (∀ (ioman : Option InOutManager) (prms : List (String × String)),
      (ioman = none ∨ TrimSpace (ByName prms "id") = ""
        ∨ ∃ manager, ioman = some manager
            ∧ manager.findOutput (TrimSpace (ByName prms "id")) = none) →
      closeCalls (stopOutput ioman prms) = []
      ∧ bodies (stopOutput ioman prms) = []
      ∧ ∃ message, message ≠ "" ∧ restErrors (stopOutput ioman prms) = [(message, 503)])
    ∧ (∀ (manager : InOutManager) (prms : List (String × String)) (ioc : InOutCloser),
      TrimSpace (ByName prms "id") ≠ "" →
      manager.findInput (TrimSpace (ByName prms "id")) = some ioc →
      closeCalls (stopInput (some manager) prms) = [ioc]
      ∧ bodies (stopInput (some manager) prms) = [okBody]
      ∧ restErrors (stopInput (some manager) prms) = [])
    ∧ (∀ (ioman : Option InOutManager) (prms : List (String × String)),
      (ioman = none ∨ TrimSpace (ByName prms "id") = ""
        ∨ ∃ manager, ioman = some manager
            ∧ manager.findInput (TrimSpace (ByName prms "id")) = none) →
      closeCalls (stopInput ioman prms) = []
      ∧ bodies (stopInput ioman prms) = []
      ∧ ∃ message, message ≠ "" ∧ restErrors (stopInput ioman prms) = [(message, 503)]) := by
  have htrim : ∀ id : String, (if id ≠ "" then TrimSpace id else id) = TrimSpace id := by
    intro id
    by_cases h : id = ""
    · subst h; simp [trimSpace_empty]
    · simp [h]
  have hprm : ∀ prms : List (String × String), TrimSpace (ByName prms "id") ≠ "" →
      ¬ prms.length = 0 := by
    intro prms h hl
    have : prms = [] := List.eq_nil_of_length_eq_zero hl
    subst this
    exact h (by simp [ByName, trimSpace_empty])
  have hmsg : ∀ id : String, "Cannot find input with id: " ++ id ++ "." ≠ "" := by
    intro id h
    have := congrArg String.length h
    simp only [String.length_append] at this
    have hdot : ".".length = 1 := by decide
    have hemp : "".length = 0 := by decide
    omega
  refine ⟨?_, ?_, ?_, ?_⟩
  · intro manager prms ioc hid hfind
    simp [stopOutput, hprm prms hid, htrim, hid, hfind, closeCalls, bodies, restErrors]
  · intro ioman prms h
    cases ioman with
    | none =>
      exact ⟨by simp [stopOutput, closeCalls], by simp [stopOutput, bodies],
        "Cannot handle the request.", by decide, by simp [stopOutput, restErrors]⟩
    | some manager =>
      by_cases hl : prms.length = 0
      · exact ⟨by simp [stopOutput, hl, closeCalls], by simp [stopOutput, hl, bodies],
          "Cannot handle the request.", by decide, by simp [stopOutput, hl, restErrors]⟩
      · by_cases hid : TrimSpace (ByName prms "id") = ""
        · exact ⟨by simp [stopOutput, hl, htrim, hid, closeCalls],
            by simp [stopOutput, hl, htrim, hid, bodies],
            "Input ID required.", by decide, by simp [stopOutput, hl, htrim, hid, restErrors]⟩
        · rcases h with h | h | ⟨m, hm, hfind⟩
          · cases h
          · exact absurd h hid
          · cases hm
            exact ⟨by simp [stopOutput, hl, htrim, hid, hfind, closeCalls],
              by simp [stopOutput, hl, htrim, hid, hfind, bodies],
              "Cannot find input with id: " ++ TrimSpace (ByName prms "id") ++ ".", hmsg _,
              by simp [stopOutput, hl, htrim, hid, hfind, restErrors]⟩
  · intro manager prms ioc hid hfind
    simp [stopInput, hprm prms hid, htrim, hid, hfind, closeCalls, bodies, restErrors]
  · intro ioman prms h
    cases ioman with
    | none =>
      exact ⟨by simp [stopInput, closeCalls], by simp [stopInput, bodies],
        "Cannot handle the request.", by decide, by simp [stopInput, restErrors]⟩
    | some manager =>
      by_cases hl : prms.length = 0
      · exact ⟨by simp [stopInput, hl, closeCalls], by simp [stopInput, hl, bodies],
          "Cannot handle the request.", by decide, by simp [stopInput, hl, restErrors]⟩
      · by_cases hid : TrimSpace (ByName prms "id") = ""
        · exact ⟨by simp [stopInput, hl, htrim, hid, closeCalls],
            by simp [stopInput, hl, htrim, hid, bodies],
            "Input ID required.", by decide, by simp [stopInput, hl, htrim, hid, restErrors]⟩
        · rcases h with h | h | ⟨m, hm, hfind⟩
          · cases h
          · exact absurd h hid
          · cases hm
            exact ⟨by simp [stopInput, hl, htrim, hid, hfind, closeCalls],
              by simp [stopInput, hl, htrim, hid, hfind, bodies],
              "Cannot find input with id: " ++ TrimSpace (ByName prms "id") ++ ".", hmsg _,
              by simp [stopInput, hl, htrim, hid, hfind, restErrors]⟩

/-- Witness of C12: the padded id of a known output, and an unknown id. -/
theorem stop_by_identifier_closes_found_instance_witness :
    (closeCalls (stopOutput (some sampleManager) [("id", " out-1 ")]) = [⟨"out-1"⟩]
      ∧ bodies (stopOutput (some sampleManager) [("id", " out-1 ")]) = [okBody]
      ∧ restErrors (stopOutput (some sampleManager) [("id", " out-1 ")]) = [])
    ∧ (closeCalls (stopOutput (some sampleManager) [("id", "out-9")]) = []
      ∧ bodies (stopOutput (some sampleManager) [("id", "out-9")]) = []
      ∧ ∃ message, message ≠ ""
          ∧ restErrors (stopOutput (some sampleManager) [("id", "out-9")]) = [(message, 503)]) :=
  ⟨stop_by_identifier_closes_found_instance.1 sampleManager [("id", " out-1 ")] ⟨"out-1"⟩
      (by decide) (by decide),
    stop_by_identifier_closes_found_instance.2.1 (some sampleManager) [("id", "out-9")]
      (Or.inr (Or.inr ⟨sampleManager, rfl, by decide⟩))⟩

theorem clamp_eq_min_max (n : Int) :
    MinInt 15 (MaxInt 0 n) = min 15 (max 0 n)
      ∧ 0 ≤ MinInt 15 (MaxInt 0 n) ∧ MinInt 15 (MaxInt 0 n) ≤ 15 := by
  unfold MinInt MaxInt
  refine ⟨?_, ?_, ?_⟩
  · rw [min_def, max_def]
  · split <;> split <;> omega
  · split <;> split <;> omega

theorem toInt_representable (unrepresentable : Float64 → Int) (q : Rat)
    (h0 : -(2 ^ 63 : Int) ≤ integerPart q) (h1 : integerPart q < (2 ^ 63 : Int)) :
    Float64.toInt unrepresentable (.finite q) = integerPart q :=
  if_pos ⟨h0, h1⟩

theorem newRedisIO_db_eq (logger : Option Logger) (newUUID : Except String String)
    (unrepresentable : Float64 → Int) (params : Params) ( rio : redisIO)
    (h : newRedisIO logger newUUID unrepresentable (some params) = some rio) :
    rio.db = (match paramFloat64 params "db" with
      | some f => MinInt 15 (MaxInt 0 (f.toInt unrepresentable))
      | none => 0) := by
  cases newUUID with
  | error e => simp [ newRedisIO] at h
  | ok id =>
    obtain ⟨s, c, -, -, -, -, -, -, hdb⟩ :=
      newRedisIO_eq_some logger id unrepresentable params rio h
    exact hdb

/-- C14, counterexample: the `db` parameter `1e19` is a number with integer part
`10^19`, for which the claim gives `db = min(15, max(0, 10^19)) = 15`; that
integer part is outside the `int` type, `int(f)` on amd64 yields the smallest
`int64`, and the instance is built with `db = 0`. -/
theorem newRedisIO_db_is_zero_at_1e19 :
    integerPart 10000000000000000000 = 10000000000000000000
    ∧ min 15 (max 0 (integerPart 10000000000000000000)) = 15
    ∧ ( newRedisIO none (.ok "0001") amd64Unrepresentable (some hugeDbParams)).map
        (fun rio => rio.db) = some 0 := by
  refine ⟨by decide, by decide, by decide⟩

/-- C14, amended: `newRedisIO` does not reject a database number, whatever its
value: with valid `server` and `channel` the instance is built for every numeric
`db`.  In every instance built, `0 ≤ db ≤ 15`; when `db` is a number whose integer
part `n` fits the `int` type, `db = min(15, max(0, n))`; when `db` is missing or no
number, `db = 0`. -/
theorem newRedisIO_clamps_representable_db :
    (∀ (logger : Option Logger) (newUUID : Except String String)
        (unrepresentable : Float64 → Int) (params : Params) ( rio : redisIO),
      newRedisIO logger newUUID unrepresentable (some params) = some rio →
      (∀ q, params.lookup "db" = some (.float64 (.finite q)) →
          -(2 ^ 63 : Int) ≤ integerPart q → integerPart q < (2 ^ 63 : Int) →
          rio.db = min 15 (max 0 (integerPart q)))
      ∧ ((∀ f, params.lookup "db" ≠ some (.float64 f)) → rio.db = 0)
      ∧ 0 ≤ rio.db ∧ rio.db ≤ 15)
    ∧ (∀ (logger : Option Logger) (id : String) (unrepresentable : Float64 → Int)
        (params : Params) (s c : String) (f : Float64),
      params.lookup "server" = some (.string s) → TrimSpace s ≠ "" →
      params.lookup "channel" = some (.string c) → TrimSpace c ≠ "" →
      params.lookup "db" = some (.float64 f) →
      ∃ rio, newRedisIO logger (.ok id) unrepresentable (some params) = some rio
        ∧ 0 ≤ rio.db ∧ rio.db ≤ 15) := by
  have hfirst : ∀ (logger : Option Logger) (newUUID : Except String String)
      (unrepresentable : Float64 → Int) (params : Params) ( rio : redisIO),
      newRedisIO logger newUUID unrepresentable (some params) = some rio →
      (∀ q, params.lookup "db" = some (.float64 (.finite q)) →
          -(2 ^ 63 : Int) ≤ integerPart q → integerPart q < (2 ^ 63 : Int) →
          rio.db = min 15 (max 0 (integerPart q)))
      ∧ ((∀ f, params.lookup "db" ≠ some (.float64 f)) → rio.db = 0)
      ∧ 0 ≤ rio.db ∧ rio.db ≤ 15 := by
    intro logger newUUID unrepresentable params rio h
    have hdb := newRedisIO_db_eq logger newUUID unrepresentable params rio h
    refine ⟨fun q hq h0 h1 => ?_, fun hn => ?_, ?_⟩
    · rw [hdb]
      simp only [paramFloat64, hq, toInt_representable unrepresentable q h0 h1]
      exact (clamp_eq_min_max _).1
    · rw [hdb]
      cases hl : params.lookup "db" with
      | none => simp [paramFloat64, hl]
      | some v =>
        cases v with
        | float64 f => exact absurd hl (hn f)
        | string s => simp [paramFloat64, hl]
        | other => simp [paramFloat64, hl]
    · rw [hdb]
      cases hp : paramFloat64 params "db" with
      | none => simp
      | some f => exact (clamp_eq_min_max _).2
  refine ⟨hfirst, ?_⟩
  intro logger id unrepresentable params s c f hs hts hc htc _
  obtain ⟨rio, h⟩ := newRedisIO_isSome logger id unrepresentable params s c hs hts hc htc
  exact ⟨rio, h, (hfirst logger (.ok id) unrepresentable params rio h).2.2⟩

/-- Witness of C14 as amended: the database number 99 is clamped to 15, and the
number `1e19` still gives an instance with `db` within `0..15`. -/
theorem newRedisIO_clamps_representable_db_witness :
    (∃ rio, newRedisIO none (.ok "0001") amd64Unrepresentable (some sampleRedisParams)
        = some rio ∧ rio.db = min 15 (max 0 (integerPart 99)))
    ∧ ∃ rio, newRedisIO none (.ok "0001") amd64Unrepresentable (some hugeDbParams) = some rio
        ∧ 0 ≤ rio.db ∧ rio.db ≤ 15 :=
  ⟨⟨_, rfl,
      (newRedisIO_clamps_representable_db.1 none (.ok "0001") amd64Unrepresentable
        sampleRedisParams _ rfl).1 99 rfl (by decide) (by decide)⟩,
    newRedisIO_clamps_representable_db.2 none "0001" amd64Unrepresentable hugeDbParams
      "localhost:6379" "logs" (.finite 10000000000000000000) rfl (by decide) rfl (by decide)
      rfl⟩

end Fluentgo
